import Mathlib

/-!
Shallow embedding of the client-resident behavioral analytics and recommendation
engine (the `useUserAnalytics` hook): event/session/preference data model, the
preference-model update, session lifecycle, Pearson user similarity,
collaborative / content-based / hybrid recommendation engines, predictive
heuristics and the analytics aggregator, together with theorems checking the
specification's claims about them.

Modelling conventions:
* JS numbers are modelled as `ℚ` where the source only adds, multiplies and
  divides rationals, and as `ℝ` where `Math.sqrt` enters (Pearson similarity and
  everything downstream of it).
* `Math.round(x)` is `⌊x + 1/2⌋` (round half toward +∞), as in JS.
* JS `Map` and plain-object accumulators are association lists in insertion
  order; `Map.set` replaces the value at an existing key in place and otherwise
  appends (`assocSet`).
* `Array.prototype.sort` is stable (ES2019); it is modelled by a stable
  insertion sort (`sortByDesc`), which agrees with any stable sort for the
  numeric comparators used by the source.
* Timestamps are `ℕ` (milliseconds); the inactivity timer is modelled by an
  explicit `deadline` component plus a `timerFire` transition.
-/

set_option linter.unusedVariables false

/-- The event `type` union of the source's `UserEvent`. -/
inductive EventType where
  | product_view
  | product_click
  | add_to_cart
  | remove_from_cart
  | purchase
  | search
  | category_browse
  | cart_abandon
  | scroll
  | time_spent
  | screen_view
  | button_click
  | form_interaction
  | error
  | performance
  deriving DecidableEq

/-- One row of the derived preference table (`UserPreference` in the source).
The source stores `event.type as any` into `interactionType`, so the field holds
the full event type. -/
structure UserPreference where
  userId : String
  productId : String
  rating : ℚ
  interactionType : EventType
  timestamp : ℕ
  weight : ℚ
  deriving DecidableEq

/-- The payload handed to `trackEvent` / `updateUserPreferences`: a `UserEvent`
without the generated `id`, `timestamp` and `sessionId`.  Only the fields the
engine logic actually reads are modelled; `metadata.scrollDepth` (the one piece
of `metadata` the engine reads) is lifted to the `scrollDepth` field.
`productType` and `performanceMetrics` are carried data the engine never reads
and are omitted. -/
structure EventData where
  type : EventType
  productId : Option String := none
  category : Option String := none
  searchQuery : Option String := none
  duration : Option ℕ := none
  screenName : Option String := none
  elementId : Option String := none
  errorMessage : Option String := none
  scrollDepth : Option ℕ := none
  deriving DecidableEq

/-- A recorded event (the source's `UserEvent`, minus the random `id` string,
which nothing in the engine reads back). -/
structure UserEvent where
  type : EventType
  productId : Option String := none
  category : Option String := none
  searchQuery : Option String := none
  duration : Option ℕ := none
  screenName : Option String := none
  elementId : Option String := none
  errorMessage : Option String := none
  scrollDepth : Option ℕ := none
  timestamp : ℕ := 0
  sessionId : String := ""
  deriving DecidableEq

/-- Captured device context. -/
structure DeviceInfo where
  userAgent : String := ""
  screenSize : String := ""
  viewportSize : String := ""
  language : String := ""
  deriving DecidableEq

/-- The source's `UserSession`. -/
structure UserSession where
  id : String
  startTime : ℕ := 0
  endTime : Option ℕ := none
  events : List UserEvent := []
  pageViews : List String := []
  productsViewed : List String := []
  cartInteractions : ℕ := 0
  purchases : ℕ := 0
  totalScrollDepth : ℕ := 0
  totalTimeSpent : ℕ := 0
  lastActivity : ℕ := 0
  deviceInfo : DeviceInfo := {}
  deriving DecidableEq

/-- The mutable state of one engine instance: the `useState` cells of the hook
plus the pending inactivity-timer deadline (absolute time at which the
`setTimeout` scheduled by session creation / `trackEvent` would fire). -/
structure EngineState where
  currentSession : Option UserSession
  sessions : List UserSession := []
  events : List UserEvent := []
  userPreferences : List UserPreference := []
  deadline : Option ℕ := none
  deriving DecidableEq

/-- `SESSION_TIMEOUT = 30 * 60 * 1000` (30 minutes in milliseconds). -/
def SESSION_TIMEOUT : ℕ := 30 * 60 * 1000

/-- JS `Math.round` on the rationals: round half toward positive infinity. -/
def roundTo1 (q : ℚ) : ℚ := (⌊q * 10 + 1 / 2⌋ : ℚ) / 10

/-- The fixed `(rating, weight)` pair of the `switch` in
`updateUserPreferences`; `none` for the non-qualifying types (the `default:
return` branch). -/
def ratingWeight : EventType → Option (ℚ × ℚ)
  | .product_view => some (1, 1 / 10)
  | .product_click => some (2, 3 / 10)
  | .add_to_cart => some (4, 7 / 10)
  | .purchase => some (5, 1)
  | .remove_from_cart => some (1, 1 / 5)
  | _ => none

/-- The `findIndex` predicate `p.userId === userId && p.productId === event.productId`. -/
def prefMatches (userId productId : String) (p : UserPreference) : Bool :=
  p.userId == userId && p.productId == productId

/-- The weighted-average merge performed on an existing preference row:
`newWeight = existing.weight + weight`,
`newRating = (existing.rating*existing.weight + rating*weight) / newWeight`
rounded to one decimal; `interactionType` is left unchanged by the source. -/
def mergePreference (p : UserPreference) (rating weight : ℚ) (now : ℕ) : UserPreference :=
  { p with
    rating := roundTo1 ((p.rating * p.weight + rating * weight) / (p.weight + weight)),
    weight := p.weight + weight,
    timestamp := now }

/-- `prev.findIndex(...) >= 0 ? replace-at-index : append`: replace the first
row matching (userId, productId) with the merged row, else append a fresh row
with the incoming rating/weight. -/
def replaceFirstPref (userId productId : String) (rating weight : ℚ) (ty : EventType)
    (now : ℕ) : List UserPreference → List UserPreference
  | [] => [⟨userId, productId, rating, ty, now, weight⟩]
  | p :: ps =>
    if prefMatches userId productId p then mergePreference p rating weight now :: ps
    else p :: replaceFirstPref userId productId rating weight ty now ps

/-- `updateUserPreferences` of the source.  The source resolves
`userId = currentSession?.id || 'anonymous'` from its closure; here the resolved
user id is a parameter (its only caller, `trackEvent`, passes the current
session's id). -/
def updateUserPreferences (userId : String) (now : ℕ) (event : EventData)
    (prefs : List UserPreference) : List UserPreference :=
  match event.productId with
  | none => prefs
  | some pid =>
    match ratingWeight event.type with
    | none => prefs
    | some (rating, weight) => replaceFirstPref userId pid rating weight event.type now prefs

/-- The first preference row for a (userId, productId) pair, if any. -/
def lookupPref (prefs : List UserPreference) (userId productId : String) :
    Option UserPreference :=
  prefs.find? (prefMatches userId productId)

/-- JS `Map.set` / `obj[k] = v` on an insertion-ordered association list:
replace the value at an existing key in place, else append a new entry. -/
def assocSet {β : Type} (k : String) (v : β) : List (String × β) → List (String × β)
  | [] => [(k, v)]
  | (k', v') :: rest => if k' == k then (k, v) :: rest else (k', v') :: assocSet k v rest

/-- JS `Map.get` / `obj[k]` on an association list. -/
def assocFind? {β : Type} (k : String) : List (String × β) → Option β
  | [] => none
  | (k', v') :: rest => if k' == k then some v' else assocFind? k rest

/-- JS `Set` iteration order: keep the first occurrence of each element. -/
def firstDedup (l : List String) : List String :=
  l.foldl (fun acc x => if x ∈ acc then acc else acc ++ [x]) []

/-- Stable insertion modelling one step of JS stable `Array.prototype.sort` with
the numeric comparator `(a, b) => key(b) - key(a)` (descending by key): a new
element lands after every already-placed element whose key is ≥ its own. -/
def insertByDesc {α β : Type} [LinearOrder β] (key : α → β) (x : α) : List α → List α
  | [] => [x]
  | y :: ys => if key y < key x then x :: y :: ys else y :: insertByDesc key x ys

/-- Stable descending sort by key (model of `.sort((a, b) => key(b) - key(a))`,
which is stable per ES2019; a stable sort is unique for this comparator, so the
choice of insertion sort is immaterial). -/
def sortByDesc {α β : Type} [LinearOrder β] (key : α → β) (l : List α) : List α :=
  l.foldl (fun acc x => insertByDesc key x acc) []

/-- Build the stored event from the `trackEvent` payload (the generated random
`id` string is read by nothing and is omitted). -/
def mkUserEvent (e : EventData) (now : ℕ) (sid : String) : UserEvent :=
  { type := e.type, productId := e.productId, category := e.category,
    searchQuery := e.searchQuery, duration := e.duration, screenName := e.screenName,
    elementId := e.elementId, errorMessage := e.errorMessage, scrollDepth := e.scrollDepth,
    timestamp := now, sessionId := sid }

/-- The `setCurrentSession` updater inside `trackEvent`: append the event, bump
`lastActivity`, then the per-type metric switch.  (`event.duration || prev` and
`event.metadata?.scrollDepth || 0` are JS falsy-guards: both `undefined` and `0`
fall back.) -/
def applyEventToSession (e : EventData) (now : ℕ) (newEvent : UserEvent)
    (sess : UserSession) : UserSession :=
  let base := { sess with events := sess.events ++ [newEvent], lastActivity := now }
  match e.type with
  | .product_view =>
    match e.productId with
    | some pid =>
      if pid ∈ sess.productsViewed then base
      else { base with productsViewed := sess.productsViewed ++ [pid] }
    | none => base
  | .add_to_cart => { base with cartInteractions := sess.cartInteractions + 1 }
  | .remove_from_cart => { base with cartInteractions := sess.cartInteractions + 1 }
  | .purchase => { base with purchases := sess.purchases + 1 }
  | .time_spent =>
    match e.duration with
    | some d => if d = 0 then base else { base with totalTimeSpent := d }
    | none => base
  | .scroll => { base with totalScrollDepth := max sess.totalScrollDepth (e.scrollDepth.getD 0) }
  | _ => base

/-- `trackEvent`: early return when no session is active; otherwise update the
preference table, the current session, the global event log, and reset the
inactivity timer to `now + SESSION_TIMEOUT`. -/
def trackEvent (now : ℕ) (e : EventData) (st : EngineState) : EngineState :=
  match st.currentSession with
  | none => st
  | some sess =>
    { st with
      currentSession := some (applyEventToSession e now (mkUserEvent e now sess.id) sess),
      userPreferences := updateUserPreferences sess.id now e st.userPreferences,
      events := st.events ++ [mkUserEvent e now sess.id],
      deadline := some (now + SESSION_TIMEOUT) }

/-- `endSession`: freeze the current session with `endTime := now`, append it to
history, clear the current session and cancel the pending timer. -/
def endSession (now : ℕ) (st : EngineState) : EngineState :=
  match st.currentSession with
  | none => st
  | some sess =>
    { st with
      sessions := st.sessions ++ [{ sess with endTime := some now }],
      currentSession := none,
      deadline := none }

/-- The inactivity timer firing: the `setTimeout(endSession, SESSION_TIMEOUT)`
callback runs at the pending deadline (the deadline exists only while the timer
has not been cancelled or rescheduled). -/
def timerFire (st : EngineState) : EngineState :=
  match st.deadline with
  | none => st
  | some d => endSession d st

/-- The inductive invariant on one preference row: positive accumulated weight
and a rating within the 1-5 scale. -/
def prefInvariant (p : UserPreference) : Prop :=
  0 < p.weight ∧ 1 ≤ p.rating ∧ p.rating ≤ 5

/-- A scroll payload carrying `metadata.scrollDepth = d`. -/
def scrollEvent (d : ℕ) : EventData := { type := .scroll, scrollDepth := some d }

/-- The source's `AnalyticsSummary` (counts and rates in `ℚ`). -/
structure AnalyticsSummary where
  totalSessions : ℕ
  totalEvents : ℕ
  averageSessionDuration : ℚ
  mostViewedCategories : List (String × ℕ)
  mostInteractedProducts : List (String × ℕ)
  conversionRate : ℚ
  cartAbandonmentRate : ℚ
  averageScrollDepth : ℚ
  averageTimeSpent : ℚ
  topPerformingScreens : List (String × ℕ)
  errorRate : ℚ

/-- `events.filter(e => field).reduce((acc, e) => acc[field] = (acc[field] || 0) + 1)`:
occurrence counts keyed in first-seen order. -/
def countBy (f : UserEvent → Option String) (events : List UserEvent) : List (String × ℕ) :=
  events.foldl (fun acc e =>
    match f e with
    | none => acc
    | some k => assocSet k ((assocFind? k acc).getD 0 + 1) acc) []

/-- `Object.entries(counts).sort(([,a],[,b]) => b - a).slice(0, 5)`. -/
def top5 (counts : List (String × ℕ)) : List (String × ℕ) :=
  (sortByDesc Prod.snd counts).take 5

/-- `getAnalyticsSummary` of the source. -/
def getAnalyticsSummary (sessions : List UserSession) (events : List UserEvent) :
    AnalyticsSummary :=
  let totalSessions := sessions.length
  let totalEvents := events.length
  let completedSessions := sessions.filter (fun s => s.endTime.isSome)
  let averageSessionDuration : ℚ :=
    if 0 < completedSessions.length then
      (completedSessions.foldl (fun sum s => sum + ((s.endTime.getD 0 : ℚ) - (s.startTime : ℚ)))
        0) / completedSessions.length
    else 0
  let averageScrollDepth : ℚ :=
    if 0 < sessions.length then
      (sessions.foldl (fun sum s => sum + (s.totalScrollDepth : ℚ)) 0) / sessions.length
    else 0
  let averageTimeSpent : ℚ :=
    if 0 < sessions.length then
      (sessions.foldl (fun sum s => sum + (s.totalTimeSpent : ℚ)) 0) / sessions.length
    else 0
  let mostViewedCategories := top5 (countBy (fun e => e.category) events)
  let mostInteractedProducts := top5 (countBy (fun e => e.productId) events)
  let topPerformingScreens := top5 (countBy (fun e => e.screenName) events)
  let totalPurchases := (events.filter (fun e => e.type = EventType.purchase)).length
  let conversionRate : ℚ :=
    if 0 < totalSessions then (totalPurchases : ℚ) / totalSessions else 0
  let totalErrors := (events.filter (fun e => e.type = EventType.error)).length
  let errorRate : ℚ := if 0 < totalEvents then (totalErrors : ℚ) / totalEvents else 0
  let cartAbandonmentRate : ℚ := 3 / 10
  ⟨totalSessions, totalEvents, averageSessionDuration, mostViewedCategories,
    mostInteractedProducts, conversionRate, cartAbandonmentRate, averageScrollDepth,
    averageTimeSpent, topPerformingScreens, errorRate⟩

/-- A state right after a close: no current session, one closed session in history. -/
def stClosed : EngineState :=
  { currentSession := none,
    sessions := [{ id := "session-1", startTime := 0, endTime := some 5 }],
    events := [], userPreferences := [], deadline := none }

/-- A fresh active session and the corresponding engine state. -/
def sess0 : UserSession := { id := "session-0" }

/-- An engine state with an active session and a pending timer. -/
def stActive : EngineState :=
  { currentSession := some sess0, sessions := [], events := [], userPreferences := [],
    deadline := some SESSION_TIMEOUT }

/-- `userPreferences.filter(p => p.userId === userId)`. -/
def prefsOfUser (prefs : List UserPreference) (userId : String) : List UserPreference :=
  prefs.filter (fun p => p.userId == userId)

/-- `prefsList.find(p => p.productId === productId)?.rating || 0` (a missing or
zero rating both yield 0 under the JS falsy-guard). -/
def ratingOf (l : List UserPreference) (pid : String) : ℚ :=
  ((l.find? (fun p => p.productId == pid)).map UserPreference.rating).getD 0

/-- The shared product list `[...user1Products].filter(x => user2Products.has(x))`
in `Set` iteration order (first occurrence). -/
def commonProducts (prefs : List UserPreference) (u1 u2 : String) : List String :=
  (firstDedup ((prefsOfUser prefs u1).map UserPreference.productId)).filter
    (fun pid => ((prefsOfUser prefs u2).map UserPreference.productId).contains pid)

/-- `sum1` of the Pearson loop. -/
def pearsonSum1 (prefs : List UserPreference) (u1 u2 : String) : ℚ :=
  ((commonProducts prefs u1 u2).map (fun pid => ratingOf (prefsOfUser prefs u1) pid)).sum

/-- `sum2` of the Pearson loop. -/
def pearsonSum2 (prefs : List UserPreference) (u1 u2 : String) : ℚ :=
  ((commonProducts prefs u1 u2).map (fun pid => ratingOf (prefsOfUser prefs u2) pid)).sum

/-- `sum1Sq` of the Pearson loop. -/
def pearsonSum1Sq (prefs : List UserPreference) (u1 u2 : String) : ℚ :=
  ((commonProducts prefs u1 u2).map (fun pid =>
    ratingOf (prefsOfUser prefs u1) pid * ratingOf (prefsOfUser prefs u1) pid)).sum

/-- `sum2Sq` of the Pearson loop. -/
def pearsonSum2Sq (prefs : List UserPreference) (u1 u2 : String) : ℚ :=
  ((commonProducts prefs u1 u2).map (fun pid =>
    ratingOf (prefsOfUser prefs u2) pid * ratingOf (prefsOfUser prefs u2) pid)).sum

/-- `pSum` of the Pearson loop. -/
def pearsonPSum (prefs : List UserPreference) (u1 u2 : String) : ℚ :=
  ((commonProducts prefs u1 u2).map (fun pid =>
    ratingOf (prefsOfUser prefs u1) pid * ratingOf (prefsOfUser prefs u2) pid)).sum

/-- `n = commonProducts.size`. -/
def pearsonN (prefs : List UserPreference) (u1 u2 : String) : ℚ :=
  ((commonProducts prefs u1 u2).length : ℚ)

/-- `num = pSum - (sum1 * sum2 / n)` (exact rational arithmetic). -/
def pearsonNum (prefs : List UserPreference) (u1 u2 : String) : ℚ :=
  pearsonPSum prefs u1 u2 - pearsonSum1 prefs u1 u2 * pearsonSum2 prefs u1 u2 / pearsonN prefs u1 u2

/-- `den = Math.sqrt((sum1Sq - sum1*sum1/n) * (sum2Sq - sum2*sum2/n))`. -/
noncomputable def pearsonDen (prefs : List UserPreference) (u1 u2 : String) : ℝ :=
  Real.sqrt (((pearsonSum1Sq prefs u1 u2
      - pearsonSum1 prefs u1 u2 * pearsonSum1 prefs u1 u2 / pearsonN prefs u1 u2)
    * (pearsonSum2Sq prefs u1 u2
      - pearsonSum2 prefs u1 u2 * pearsonSum2 prefs u1 u2 / pearsonN prefs u1 u2) : ℚ))

/-- `calculateUserSimilarity`: 0 when either user has no preferences, when the
shared product set is empty, or when `den === 0`; otherwise
`Math.max(-1, Math.min(1, num / den))`. -/
noncomputable def calculateUserSimilarity (prefs : List UserPreference)
    (userId1 userId2 : String) : ℝ :=
  if prefsOfUser prefs userId1 = [] ∨ prefsOfUser prefs userId2 = [] then 0
  else if commonProducts prefs userId1 userId2 = [] then 0
  else if pearsonDen prefs userId1 userId2 = 0 then 0
  else max (-1) (min 1 ((pearsonNum prefs userId1 userId2 : ℝ)
    / pearsonDen prefs userId1 userId2))

/-- Fixture: target user "t" and user "v" share two perfectly anti-correlated
products p1/p2 (so their similarity is -1); "v" additionally rates product "s",
which "t" has not rated. -/
def prefsC5 : List UserPreference :=
  [⟨"t", "p1", 1, .product_view, 0, 1⟩,
   ⟨"t", "p2", 5, .purchase, 0, 1⟩,
   ⟨"v", "p1", 5, .purchase, 0, 1⟩,
   ⟨"v", "p2", 1, .product_view, 0, 1⟩,
   ⟨"v", "s", 5, .purchase, 0, 1⟩]

/-- The `userSimilarities` map built inside `getCollaborativeRecommendations`:
iterate over the full preference table; skip the target's own rows; for every
other user's row whose product the target has rated,
`userSimilarities.set(pref.userId, calculateUserSimilarity(userId, pref.userId))`.
(`Map.set` keeps an existing key's position; the value written is recomputed
but identical every time.) -/
noncomputable def similarityEntries (prefs : List UserPreference) (userId : String) :
    List (String × ℝ) :=
  prefs.foldl (fun acc pref =>
    if pref.userId == userId then acc
    else if (prefsOfUser prefs userId).any (fun up => up.productId == pref.productId) then
      assocSet pref.userId (calculateUserSimilarity prefs userId pref.userId) acc
    else acc) []

/-- `Array.from(userSimilarities.entries()).sort(([,a],[,b]) => b - a).slice(0, 5)
.map(([userId]) => userId)`. -/
noncomputable def topSimilarUsers (prefs : List UserPreference) (userId : String) :
    List String :=
  ((sortByDesc Prod.snd (similarityEntries prefs userId)).take 5).map Prod.fst

/-- Modelled from the spec: one insertion step of ordering candidates by
descending similarity with ties broken by ascending user id (a strict total
order, so the sorted result is unique). -/
noncomputable def insertSpec (x : String × ℝ) : List (String × ℝ) → List (String × ℝ)
  | [] => [x]
  | y :: ys =>
    if y.2 < x.2 ∨ (y.2 = x.2 ∧ x.1 < y.1) then x :: y :: ys else y :: insertSpec x ys

/-- Modelled from the spec: "Keep the top 5 most-similar users (descending
similarity; ties broken by lower user id for determinism)" — the claim's
selection rule, for comparison against the code's `topSimilarUsers`. -/
noncomputable def topSimilarUsersSpec (prefs : List UserPreference) (userId : String) :
    List String :=
  (((similarityEntries prefs userId).foldl (fun acc x => insertSpec x acc) []).take 5).map
    Prod.fst

/-- Fixture for C4: target "t" rates p0; six candidates u6..u1 each share
exactly the product p0 with the target (a single shared product makes every
Pearson similarity 0, so all six candidates are tied), listed so that the
HIGHER user ids enter the similarity map FIRST. -/
def prefsC4 : List UserPreference :=
  [⟨"t", "p0", 5, .purchase, 0, 1⟩,
   ⟨"u6", "p0", 5, .purchase, 0, 1⟩,
   ⟨"u5", "p0", 5, .purchase, 0, 1⟩,
   ⟨"u4", "p0", 5, .purchase, 0, 1⟩,
   ⟨"u3", "p0", 5, .purchase, 0, 1⟩,
   ⟨"u2", "p0", 5, .purchase, 0, 1⟩,
   ⟨"u1", "p0", 5, .purchase, 0, 1⟩]

/-- The recommendation algorithm tag. -/
inductive Algorithm where
  | collaborative
  | content
  | hybrid
  | ml
  deriving DecidableEq

/-- The source's `RecommendationScore`.  The hybrid reasoning string that embeds
`toFixed(2)`-formatted numbers is modelled without the formatted numbers (string
formatting of a real is outside the embedding; nothing reads the strings
back). -/
structure RecommendationScore where
  productId : String
  score : ℝ
  algorithm : Algorithm
  confidence : ℝ
  reasoning : List String

/-- JS ToInt32: wrap an integer into [-2^31, 2^31). -/
def toInt32 (n : ℤ) : ℤ := (n + 2 ^ 31) % 2 ^ 32 - 2 ^ 31

/-- One step of `productId.split('').reduce((a, b) => ((a << 5) - a +
b.charCodeAt(0)) & 0xffffffff, 0)`: the shift wraps to Int32 and the
`& 0xffffffff` is ToInt32.  `charCodeAt` is the UTF-16 code unit, which for the
BMP characters used in the fixtures is the code point. -/
def hashStep (a : ℤ) (c : Char) : ℤ := toInt32 (toInt32 (a * 32) - a + c.toNat)

/-- The hash accumulated over the product id's characters. -/
def productHash (productId : String) : ℤ := productId.data.foldl hashStep 0

/-- The fixed category list of `getProductCategory`. -/
def categoriesList : List String :=
  ["electronics", "clothing", "home", "sports", "books", "beauty"]

/-- `getProductCategory`: `categories[Math.abs(hash) % categories.length]`.
The index is always < 6, so the lookup never misses (despite the source's
`string | null` return type, the body always returns a category). -/
def getProductCategory (productId : String) : String :=
  categoriesList.getD ((productHash productId).natAbs % 6) ""

/-- The `productScores` map of `getCollaborativeRecommendations`: over the top
similar users' preference rows, skipping products the target has rated,
`score += rating * similarity`, `count += 1` (`userSimilarities.get(su) || 0`
is the `0`-defaulted lookup). -/
noncomputable def collabProductScores (prefs : List UserPreference) (userId : String) :
    List (String × ℝ × ℕ) :=
  (topSimilarUsers prefs userId).foldl (fun acc su =>
    let similarity := (assocFind? su (similarityEntries prefs userId)).getD 0
    (prefsOfUser prefs su).foldl (fun acc2 pref =>
      if (prefsOfUser prefs userId).any (fun up => up.productId == pref.productId) then acc2
      else
        let current := (assocFind? pref.productId acc2).getD (0, 0)
        assocSet pref.productId
          (current.1 + (pref.rating : ℝ) * similarity, current.2 + 1) acc2)
      acc) []

/-- One collaborative `RecommendationScore`: `score / count`,
`confidence = min(count / 3, 1)`. -/
noncomputable def collabRec (e : String × ℝ × ℕ) : RecommendationScore :=
  ⟨e.1, e.2.1 / (e.2.2 : ℝ), .collaborative, min ((e.2.2 : ℝ) / 3) 1,
    ["Recommended by " ++ toString e.2.2 ++ " similar users"]⟩

/-- `getCollaborativeRecommendations(userId, limit)`: empty for a user without
preferences; otherwise the accumulated product scores, sorted descending and
cut to `limit`. -/
noncomputable def getCollaborativeRecommendations (prefs : List UserPreference)
    (userId : String) (limit : ℕ) : List RecommendationScore :=
  if prefsOfUser prefs userId = [] then []
  else
    (sortByDesc RecommendationScore.score
      ((collabProductScores prefs userId).map collabRec)).take limit

/-- The normalized `categoryPreferences` vector of
`getContentBasedRecommendations`: `rating * weight` mass accumulated per
category, each entry divided by the user's total weight. -/
def contentCategoryPrefs (prefs : List UserPreference) (userId : String) :
    List (String × ℚ) :=
  let userPrefs := prefsOfUser prefs userId
  let totalWeight : ℚ := (userPrefs.map UserPreference.weight).sum
  (userPrefs.foldl (fun acc pref =>
    let category := getProductCategory pref.productId
    assocSet category ((assocFind? category acc).getD 0 + pref.rating * pref.weight) acc)
    []).map (fun e => (e.1, e.2 / totalWeight))

/-- The `productScores` map of `getContentBasedRecommendations`: for every
preference row on a product the target has not rated whose category carries
affinity, `score = rating * categoryScore` (`Map.set`, so a later row on the
same product overwrites). -/
def contentProductScores (prefs : List UserPreference) (userId : String) :
    List (String × ℚ × String) :=
  prefs.foldl (fun acc pref =>
    if (prefsOfUser prefs userId).any (fun up => up.productId == pref.productId) then acc
    else
      let category := getProductCategory pref.productId
      match assocFind? category (contentCategoryPrefs prefs userId) with
      | none => acc
      | some categoryScore =>
        assocSet pref.productId (pref.rating * categoryScore, category) acc) []

/-- One content-based `RecommendationScore`: fixed confidence 0.8. -/
noncomputable def contentRec (e : String × ℚ × String) : RecommendationScore :=
  ⟨e.1, ((e.2.1 : ℚ) : ℝ), .content, 0.8,
    ["Based on your preference for " ++ e.2.2 ++ " products"]⟩

/-- `getContentBasedRecommendations(userId, limit)`. -/
noncomputable def getContentBasedRecommendations (prefs : List UserPreference)
    (userId : String) (limit : ℕ) : List RecommendationScore :=
  if prefsOfUser prefs userId = [] then []
  else
    (sortByDesc RecommendationScore.score
      ((contentProductScores prefs userId).map contentRec)).take limit

/-- One `combinedScores.set(rec.productId, ...)` step of the hybrid combiner:
read the current entry (defaulting to `{collaborative: 0, content: 0, count: 0}`),
update it through `f` with the incoming score, and store it back. -/
noncomputable def scoreStep (f : ℝ × ℝ × ℕ → ℝ → ℝ × ℝ × ℕ)
    (acc : List (String × ℝ × ℝ × ℕ)) (rec : RecommendationScore) :
    List (String × ℝ × ℝ × ℕ) :=
  assocSet rec.productId (f ((assocFind? rec.productId acc).getD (0, 0, 0)) rec.score) acc

/-- The collaborative pass: `collaborative := Math.max(current.collaborative,
rec.score)`, content kept, `count := count + 1`. -/
def collabUpd (c : ℝ × ℝ × ℕ) (s : ℝ) : ℝ × ℝ × ℕ := (max c.1 s, c.2.1, c.2.2 + 1)

/-- The content pass: collaborative kept, `content := Math.max(current.content,
rec.score)`, `count := count + 1`. -/
def contentUpd (c : ℝ × ℝ × ℕ) (s : ℝ) : ℝ × ℝ × ℕ := (c.1, max c.2.1 s, c.2.2 + 1)

/-- The `combinedScores` map of `getHybridRecommendations`: entries
(productId, (collaborative, content, count)), built by folding the
collaborative result list and then the content result list. -/
noncomputable def combineScores (collab contentRecs : List RecommendationScore) :
    List (String × ℝ × ℝ × ℕ) :=
  contentRecs.foldl (scoreStep contentUpd) (collab.foldl (scoreStep collabUpd) [])

/-- The mapped (pre-sort) hybrid entries:
`hybridScore = collaborative * 0.6 + content * 0.4`,
`confidence = min(count / 2, 1)`. -/
noncomputable def hybridEntries (collab contentRecs : List RecommendationScore) :
    List RecommendationScore :=
  (combineScores collab contentRecs).map (fun e =>
    (⟨e.1, e.2.1 * 0.6 + e.2.2.1 * 0.4, .hybrid, min ((e.2.2.2 : ℝ) / 2) 1,
      [if 1 < e.2.2.2 then "Recommended by multiple algorithms"
       else "Hybrid recommendation"]⟩ : RecommendationScore))

/-- `getHybridRecommendations(userId, limit)`: both engines are called with
`limit * 2`; the combined entries are sorted descending and cut to `limit`. -/
noncomputable def getHybridRecommendations (prefs : List UserPreference) (userId : String)
    (limit : ℕ) : List RecommendationScore :=
  (sortByDesc RecommendationScore.score
    (hybridEntries (getCollaborativeRecommendations prefs userId (limit * 2))
      (getContentBasedRecommendations prefs userId (limit * 2)))).take limit

/-- The score a result list assigns to a product (0 when absent). -/
noncomputable def scoreOf (l : List RecommendationScore) (pid : String) : ℝ :=
  ((l.find? (fun r => r.productId == pid)).map RecommendationScore.score).getD 0

/-- The per-user behavior summary returned by `analyzeUserBehavior`.  It has NO
`categoryPreferences` field — this matters for `calculatePurchaseProbability`. -/
structure UserBehavior where
  avgRating : ℚ
  totalInteractions : ℕ
  purchaseRate : ℚ
  avgSessionDuration : ℚ
  categoryDiversity : ℕ

/-- `analyzeUserBehavior(userId)` (the `|| 0` guards turn the NaN of an
empty-population division into 0). -/
def analyzeUserBehavior (prefs : List UserPreference) (events : List UserEvent)
    (userId : String) : UserBehavior :=
  let userPrefs := prefsOfUser prefs userId
  let userEvents := events.filter (fun e => e.sessionId == userId)
  { avgRating := if userPrefs.length = 0 then 0
      else (userPrefs.map UserPreference.rating).sum / userPrefs.length,
    totalInteractions := userPrefs.length,
    purchaseRate := if userPrefs.length = 0 then 0
      else ((userPrefs.filter (fun p => p.interactionType = EventType.purchase)).length : ℚ)
        / userPrefs.length,
    avgSessionDuration := if userEvents.length = 0 then 0
      else (userEvents.map (fun e => ((e.duration.getD 0 : ℕ) : ℚ))).sum / userEvents.length,
    categoryDiversity :=
      (firstDedup (userPrefs.map (fun p => getProductCategory p.productId))).length }

/-- `calculatePurchaseProbability(productId, userBehavior)`.  The source reads
`userBehavior.categoryPreferences?.[category] || 0.5`, but `analyzeUserBehavior`
— the only producer of the behavior object that reaches this function (via
`getMLPredictions`) — returns no `categoryPreferences` field, so the
optional-chain lookup is always `undefined` and the 0.5 fallback is always
taken; the computed category is dead. -/
def calculatePurchaseProbability (productId : String) (b : UserBehavior) : ℚ :=
  let categoryPref : ℚ := 1 / 2
  let base : ℚ := 3 / 10
  let p1 := if 4 < b.avgRating then base + 2 / 10 else base
  let p2 := if 3 < b.avgRating then p1 + 1 / 10 else p1
  let p3 := p2 + b.purchaseRate * (3 / 10)
  let p4 := p3 + categoryPref * (2 / 10)
  min 1 (max 0 p4)

/-- Modelled from the spec: `purchaseProbability(productId)` = clamp to [0,1]
of `0.3 + 0.2·[avgRating>4] + 0.1·[avgRating>3] + 0.3·purchaseRate +
0.2·categoryAffinity(product.category)`, where the category affinity is the
user's normalized rating·weight mass for the product's category (the
content-based engine's affinity vector; 0 for a category without mass). -/
def purchaseProbabilitySpec (prefs : List UserPreference) (userId productId : String) : ℚ :=
  let b := analyzeUserBehavior prefs [] userId
  let affinity : ℚ :=
    (assocFind? (getProductCategory productId) (contentCategoryPrefs prefs userId)).getD 0
  let base : ℚ := 3 / 10
  let p1 := if 4 < b.avgRating then base + 2 / 10 else base
  let p2 := if 3 < b.avgRating then p1 + 1 / 10 else p1
  let p3 := p2 + b.purchaseRate * (3 / 10)
  let p4 := p3 + affinity * (2 / 10)
  min 1 (max 0 p4)

/-- Fixture for C6: user "t" has a single product_view preference on product
"a" (category "clothing"); the candidate product "x" hashes to category
"electronics", in which the user has no affinity mass. -/
def prefsC6 : List UserPreference :=
  [⟨"t", "a", 1, .product_view, 0, 1 / 10⟩]

-- ===================================================================
-- Theorems
-- ===================================================================

theorem roundTo1_natCast (n : ℕ) : roundTo1 (n : ℚ) = n := by
  unfold roundTo1
  have h : ⌊(n : ℚ) * 10 + 1 / 2⌋ = 10 * n := by
    rw [Int.floor_eq_iff]
    constructor
    · push_cast
      nlinarith [Nat.cast_nonneg (α := ℚ) n]
    · push_cast
      nlinarith [Nat.cast_nonneg (α := ℚ) n]
  rw [h]
  push_cast
  ring

theorem replaceFirstPref_of_no_match {userId pid : String} {r w : ℚ} {ty : EventType}
    {now : ℕ} {l : List UserPreference}
    (h : ∀ p ∈ l, prefMatches userId pid p = false) :
    replaceFirstPref userId pid r w ty now l = l ++ [⟨userId, pid, r, ty, now, w⟩] := by
  induction l with
  | nil => rfl
  | cons p ps ih =>
    have hp := h p (List.mem_cons_self _ _)
    simp only [replaceFirstPref, hp, Bool.false_eq_true, if_false, List.cons_append,
      List.cons.injEq, true_and]
    exact ih fun q hq => h q (List.mem_cons_of_mem _ hq)

theorem replaceFirstPref_of_match {userId pid : String} {r w : ℚ} {ty : EventType}
    {now : ℕ} {pre post : List UserPreference} {ex : UserPreference}
    (hpre : ∀ p ∈ pre, prefMatches userId pid p = false)
    (hex : prefMatches userId pid ex = true) :
    replaceFirstPref userId pid r w ty now (pre ++ ex :: post)
      = pre ++ mergePreference ex r w now :: post := by
  induction pre with
  | nil => simp [replaceFirstPref, hex]
  | cons p ps ih =>
    have hp := hpre p (List.mem_cons_self _ _)
    simp only [List.cons_append, replaceFirstPref, hp, Bool.false_eq_true, if_false,
      List.cons.injEq, true_and]
    exact ih fun q hq => hpre q (List.mem_cons_of_mem _ hq)

theorem updateUserPreferences_insert {userId : String} {now : ℕ} {event : EventData}
    {prefs : List UserPreference} {pid : String} {r w : ℚ}
    (hpid : event.productId = some pid) (hrw : ratingWeight event.type = some (r, w))
    (hno : ∀ p ∈ prefs, prefMatches userId pid p = false) :
    updateUserPreferences userId now event prefs
      = prefs ++ [⟨userId, pid, r, event.type, now, w⟩] := by
  unfold updateUserPreferences
  rw [hpid, hrw]
  exact replaceFirstPref_of_no_match hno

theorem updateUserPreferences_replace {userId : String} {now : ℕ} {event : EventData}
    {pid : String} {r w : ℚ} {pre post : List UserPreference} {ex : UserPreference}
    (hpid : event.productId = some pid) (hrw : ratingWeight event.type = some (r, w))
    (hpre : ∀ p ∈ pre, prefMatches userId pid p = false)
    (hex : prefMatches userId pid ex = true) :
    updateUserPreferences userId now event (pre ++ ex :: post)
      = pre ++ mergePreference ex r w now :: post := by
  unfold updateUserPreferences
  rw [hpid, hrw]
  exact replaceFirstPref_of_match hpre hex

/-- C1: the preference update is a no-op when the event has no productId or its
type is not one of the five qualifying types; the qualifying types carry the
fixed (rating, weight) table (product_view 1/0.1, product_click 2/0.3,
remove_from_cart 1/0.2, add_to_cart 4/0.7, purchase 5/1.0); when a row for
(userId, productId) exists, the first such row is replaced by the row with
newWeight = existing.weight + w and newRating = (existing.rating*existing.weight
+ r*w) / newWeight rounded to one decimal; otherwise a new row with the incoming
rating and weight is appended. -/
theorem c1_updatePreference_contract :
    (∀ (userId : String) (now : ℕ) (event : EventData) (prefs : List UserPreference),
      event.productId = none → updateUserPreferences userId now event prefs = prefs)
    ∧ (∀ (userId : String) (now : ℕ) (event : EventData) (prefs : List UserPreference),
      ratingWeight event.type = none → updateUserPreferences userId now event prefs = prefs)
    ∧ (ratingWeight .product_view = some (1, 1 / 10)
      ∧ ratingWeight .product_click = some (2, 3 / 10)
      ∧ ratingWeight .remove_from_cart = some (1, 1 / 5)
      ∧ ratingWeight .add_to_cart = some (4, 7 / 10)
      ∧ ratingWeight .purchase = some (5, 1))
    ∧ (∀ (userId : String) (now : ℕ) (event : EventData) (prefs : List UserPreference)
        (pid : String) (r w : ℚ),
      event.productId = some pid → ratingWeight event.type = some (r, w) →
      (∀ p ∈ prefs, prefMatches userId pid p = false) →
      updateUserPreferences userId now event prefs
        = prefs ++ [⟨userId, pid, r, event.type, now, w⟩])
    ∧ (∀ (userId : String) (now : ℕ) (event : EventData) (pid : String) (r w : ℚ)
        (pre post : List UserPreference) (ex : UserPreference),
      event.productId = some pid → ratingWeight event.type = some (r, w) →
      (∀ p ∈ pre, prefMatches userId pid p = false) →
      prefMatches userId pid ex = true →
      updateUserPreferences userId now event (pre ++ ex :: post)
        = pre ++ ({ ex with
            rating := roundTo1 ((ex.rating * ex.weight + r * w) / (ex.weight + w)),
            weight := ex.weight + w,
            timestamp := now }) :: post) := by
  refine ⟨?_, ?_, ⟨rfl, rfl, rfl, rfl, rfl⟩, ?_, ?_⟩
  · intro userId now event prefs h
    simp [updateUserPreferences, h]
  · intro userId now event prefs h
    unfold updateUserPreferences
    cases hpid : event.productId with
    | none => rfl
    | some pid => rw [h]
  · intro userId now event prefs pid r w hpid hrw hno
    unfold updateUserPreferences
    rw [hpid, hrw]
    exact replaceFirstPref_of_no_match hno
  · intro userId now event pid r w pre post ex hpid hrw hpre hex
    unfold updateUserPreferences
    rw [hpid, hrw]
    exact replaceFirstPref_of_match hpre hex

/-- Witness for C1 at concrete inputs: a productId-less purchase and a search
event are no-ops; a purchase on a fresh pair inserts (rating 5, weight 1);
a second purchase on the same pair merges to (rating 5, weight 2). -/
theorem c1_witness :
    updateUserPreferences "u" 3 { type := .purchase } [] = []
    ∧ updateUserPreferences "u" 3 { type := .search, productId := some "p" } [] = []
    ∧ updateUserPreferences "u" 3 { type := .purchase, productId := some "p" } []
      = [⟨"u", "p", 5, .purchase, 3, 1⟩]
    ∧ updateUserPreferences "u" 7 { type := .purchase, productId := some "p" }
        [⟨"u", "p", 5, .purchase, 3, 1⟩]
      = [⟨"u", "p", 5, .purchase, 7, 2⟩] := by
  refine ⟨c1_updatePreference_contract.1 "u" 3 _ [] rfl,
    c1_updatePreference_contract.2.1 "u" 3 _ [] rfl, ?_, ?_⟩
  · have h := c1_updatePreference_contract.2.2.2.1 "u" 3
      { type := .purchase, productId := some "p" } [] "p" 5 1 rfl rfl (by simp)
    simpa using h
  · have h := c1_updatePreference_contract.2.2.2.2 "u" 7
      { type := .purchase, productId := some "p" } "p" 5 1 []
      [] ⟨"u", "p", 5, .purchase, 3, 1⟩ rfl rfl (by simp) (by decide)
    simp only [List.nil_append] at h
    rw [h]
    have hr : roundTo1 5 = 5 := by simpa using roundTo1_natCast 5
    norm_num [hr]

theorem lookupPref_append_no_match {prefs : List UserPreference} {userId pid : String}
    (h : ∀ p ∈ prefs, prefMatches userId pid p = false) (x : UserPreference) :
    lookupPref (prefs ++ [x]) userId pid
      = if prefMatches userId pid x then some x else none := by
  unfold lookupPref
  induction prefs with
  | nil => cases hx : prefMatches userId pid x <;> simp [List.find?, hx]
  | cons p ps ih =>
    have hp := h p (List.mem_cons_self _ _)
    simp only [List.cons_append, List.find?, hp]
    exact ih fun q hq => h q (List.mem_cons_of_mem _ hq)

theorem lookupPref_append_match {prefs : List UserPreference} {userId pid : String}
    (h : ∀ p ∈ prefs, prefMatches userId pid p = false) {x : UserPreference}
    (hx : prefMatches userId pid x = true) {post : List UserPreference} :
    lookupPref (prefs ++ x :: post) userId pid = some x := by
  unfold lookupPref
  induction prefs with
  | nil => simp [List.find?, hx]
  | cons p ps ih =>
    have hp := h p (List.mem_cons_self _ _)
    simp only [List.cons_append, List.find?, hp]
    exact ih fun q hq => h q (List.mem_cons_of_mem _ hq)

theorem ratingWeight_pos_weight {ty : EventType} {r w : ℚ}
    (h : ratingWeight ty = some (r, w)) : 0 < w ∧ roundTo1 r = r := by
  cases ty <;> simp only [ratingWeight, Option.some.injEq, Prod.mk.injEq] at h <;>
    obtain ⟨hr, hw⟩ := h <;> subst hr <;> subst hw <;>
    refine ⟨by norm_num, ?_⟩
  · simpa using roundTo1_natCast 1
  · simpa using roundTo1_natCast 2
  · simpa using roundTo1_natCast 4
  · simpa using roundTo1_natCast 1
  · simpa using roundTo1_natCast 5

/-- C2: for every qualifying event type and every fresh (user, product) pair,
recording the same qualifying event twice yields a preference row whose rating
equals the rating the first recording produced (unchanged, also after the
one-decimal rounding) and whose weight is exactly double the type's fixed
weight. -/
theorem c2_idempotent_weighting :
    ∀ (ty : EventType) (r w : ℚ), ratingWeight ty = some (r, w) →
    ∀ (userId pid : String) (now1 now2 : ℕ) (prefs : List UserPreference),
      (∀ p ∈ prefs, prefMatches userId pid p = false) →
      ∃ q1 q2 : UserPreference,
        lookupPref (updateUserPreferences userId now1 { type := ty, productId := some pid }
          prefs) userId pid = some q1
        ∧ lookupPref (updateUserPreferences userId now2 { type := ty, productId := some pid }
            (updateUserPreferences userId now1 { type := ty, productId := some pid } prefs))
            userId pid = some q2
        ∧ q1.rating = r ∧ q1.weight = w ∧ q2.rating = q1.rating ∧ q2.weight = 2 * w := by
  intro ty r w hrw userId pid now1 now2 prefs hfresh
  obtain ⟨hwpos, hround⟩ := ratingWeight_pos_weight hrw
  have hmatch : prefMatches userId pid (⟨userId, pid, r, ty, now1, w⟩ : UserPreference)
      = true := by
    simp [prefMatches]
  have h1 : updateUserPreferences userId now1 { type := ty, productId := some pid } prefs
      = prefs ++ [⟨userId, pid, r, ty, now1, w⟩] :=
    updateUserPreferences_insert rfl hrw hfresh
  have h2 : updateUserPreferences userId now2 { type := ty, productId := some pid }
        (prefs ++ (⟨userId, pid, r, ty, now1, w⟩ : UserPreference) :: [])
      = prefs ++ mergePreference ⟨userId, pid, r, ty, now1, w⟩ r w now2 :: [] :=
    updateUserPreferences_replace rfl hrw hfresh hmatch
  refine ⟨⟨userId, pid, r, ty, now1, w⟩, mergePreference ⟨userId, pid, r, ty, now1, w⟩ r w now2,
    ?_, ?_, rfl, rfl, ?_, ?_⟩
  · rw [h1]
    exact lookupPref_append_no_match hfresh _ |>.trans (by rw [hmatch]; rfl)
  · rw [h1, h2]
    exact lookupPref_append_match hfresh (by simpa [mergePreference] using hmatch)
  · show roundTo1 ((r * w + r * w) / (w + w)) = r
    have hww : w + w ≠ 0 := by positivity
    have : (r * w + r * w) / (w + w) = r := by
      field_simp
      ring
    rw [this, hround]
  · show w + w = 2 * w
    ring

/-- Witness for C2 at a concrete input: two product_view events on a fresh pair
produce rating 1 and weight 0.2. -/
theorem c2_witness :
    ∃ q1 q2 : UserPreference,
      lookupPref (updateUserPreferences "u" 1 { type := .product_view, productId := some "p" }
        []) "u" "p" = some q1
      ∧ lookupPref (updateUserPreferences "u" 2 { type := .product_view, productId := some "p" }
          (updateUserPreferences "u" 1 { type := .product_view, productId := some "p" } []))
          "u" "p" = some q2
      ∧ q1.rating = 1 ∧ q1.weight = 1 / 10 ∧ q2.rating = q1.rating ∧ q2.weight = 2 * (1 / 10) :=
  c2_idempotent_weighting .product_view 1 (1 / 10) rfl "u" "p" 1 2 [] (by simp)

/-- C10: when no session is currently active, `trackEvent` is a complete no-op:
no event is appended, no session created or modified, preferences unchanged. -/
theorem c10_trackEvent_no_session (now : ℕ) (e : EventData) (st : EngineState)
    (h : st.currentSession = none) : trackEvent now e st = st := by
  unfold trackEvent
  rw [h]

/-- Witness for C10: a product_view recorded against a closed state is dropped. -/
theorem c10_witness :
    trackEvent 100 { type := .product_view, productId := some "p" } stClosed = stClosed :=
  c10_trackEvent_no_session 100 _ _ rfl

/-- C7 counterexample: after a close (no current session), recording the next
event does NOT create a fresh Active session — the state is unchanged and there
is still no current session, refuting the claimed lazy re-creation. -/
theorem c7_counterexample :
    trackEvent 100 { type := .product_view, productId := some "p" } stClosed = stClosed
    ∧ (trackEvent 100 { type := .product_view, productId := some "p" } stClosed).currentSession
      = none :=
  ⟨rfl, rfl⟩

/-- C7 (amended): Active → Closed on explicit `endSession` or on the inactivity
timer firing at its pending deadline, whichever comes first (every recorded
event pushes the deadline to now + 30 minutes, so the timer only fires after 30
minutes without events); a closed session instance is never reopened (history
only ever grows by appending; existing entries are untouched); but after a
close the next recorded event does NOT create a fresh Active session — it is
silently dropped, and a fresh session appears only on engine
re-initialization. -/
theorem c7_session_lifecycle :
    (∀ (now : ℕ) (st : EngineState) (sess : UserSession), st.currentSession = some sess →
      (endSession now st).currentSession = none
      ∧ (endSession now st).sessions = st.sessions ++ [{ sess with endTime := some now }]
      ∧ (endSession now st).deadline = none)
    ∧ (∀ (st : EngineState) (sess : UserSession) (d : ℕ), st.currentSession = some sess →
      st.deadline = some d →
      (timerFire st).currentSession = none
      ∧ (timerFire st).sessions = st.sessions ++ [{ sess with endTime := some d }])
    ∧ (∀ (now : ℕ) (e : EventData) (st : EngineState) (sess : UserSession),
      st.currentSession = some sess →
      (trackEvent now e st).deadline = some (now + SESSION_TIMEOUT))
    ∧ (∀ (now : ℕ) (e : EventData) (st : EngineState),
      ∃ tail, (trackEvent now e st).sessions = st.sessions ++ tail)
    ∧ (∀ (now : ℕ) (st : EngineState),
      ∃ tail, (endSession now st).sessions = st.sessions ++ tail)
    ∧ (∀ (st : EngineState), ∃ tail, (timerFire st).sessions = st.sessions ++ tail)
    ∧ (∀ (now : ℕ) (e : EventData) (st : EngineState), st.currentSession = none →
      trackEvent now e st = st) := by
  refine ⟨?_, ?_, ?_, ?_, ?_, ?_, ?_⟩
  · intro now st sess h
    simp [endSession, h]
  · intro st sess d h hd
    simp [timerFire, hd, endSession, h]
  · intro now e st sess h
    simp [trackEvent, h]
  · intro now e st
    cases h : st.currentSession with
    | none => exact ⟨[], by simp [trackEvent, h]⟩
    | some sess => exact ⟨[], by simp [trackEvent, h]⟩
  · intro now st
    cases h : st.currentSession with
    | none => exact ⟨[], by simp [endSession, h]⟩
    | some sess => exact ⟨[{ sess with endTime := some now }], by simp [endSession, h]⟩
  · intro st
    cases hd : st.deadline with
    | none => exact ⟨[], by simp [timerFire, hd]⟩
    | some d =>
      cases h : st.currentSession with
      | none => exact ⟨[], by simp [timerFire, hd, endSession, h]⟩
      | some sess =>
        exact ⟨[{ sess with endTime := some d }], by simp [timerFire, hd, endSession, h]⟩
  · intro now e st h
    unfold trackEvent
    rw [h]

/-- Witness for C7 at concrete states: explicit end closes and archives the
active session; the timer fire closes it at the deadline; an event resets the
deadline; an event against a closed state is dropped. -/
theorem c7_witness :
    (endSession 40 stActive).currentSession = none
    ∧ (endSession 40 stActive).sessions = [{ sess0 with endTime := some 40 }]
    ∧ (timerFire stActive).sessions = [{ sess0 with endTime := some SESSION_TIMEOUT }]
    ∧ (trackEvent 7 (scrollEvent 30) stActive).deadline = some (7 + SESSION_TIMEOUT)
    ∧ trackEvent 9 (scrollEvent 1) stClosed = stClosed := by
  refine ⟨(c7_session_lifecycle.1 40 stActive sess0 rfl).1, ?_, ?_, ?_, ?_⟩
  · have h := (c7_session_lifecycle.1 40 stActive sess0 rfl).2.1
    simpa [stActive] using h
  · have h := (c7_session_lifecycle.2.1 stActive sess0 SESSION_TIMEOUT rfl rfl).2
    simpa [stActive] using h
  · exact c7_session_lifecycle.2.2.1 7 (scrollEvent 30) stActive sess0 rfl
  · exact c7_session_lifecycle.2.2.2.2.2.2 9 (scrollEvent 1) stClosed rfl

theorem prefMatches_mergePreference (uid' pid' : String) (p : UserPreference) (r w : ℚ)
    (now : ℕ) :
    prefMatches uid' pid' (mergePreference p r w now) = prefMatches uid' pid' p := rfl

theorem lookupPref_replaceFirstPref_weight {userId pid : String} {r w : ℚ} {ty : EventType}
    {now : ℕ} (hw : 0 < w) (l : List UserPreference) (uid' pid' : String) (p : UserPreference)
    (h : lookupPref l uid' pid' = some p) :
    ∃ p', lookupPref (replaceFirstPref userId pid r w ty now l) uid' pid' = some p'
      ∧ p.weight ≤ p'.weight := by
  induction l with
  | nil => simp [lookupPref, List.find?] at h
  | cons q qs ih =>
    by_cases hq : prefMatches userId pid q
    · simp only [replaceFirstPref, hq, if_true]
      by_cases hq' : prefMatches uid' pid' q
      · have hp : p = q := by
          simp only [lookupPref, List.find?, hq'] at h
          exact (Option.some.injEq _ _ ▸ h).symm
        refine ⟨mergePreference q r w now, ?_, ?_⟩
        · simp [lookupPref, List.find?, prefMatches_mergePreference, hq']
        · subst hp
          simp only [mergePreference]
          linarith
      · simp only [lookupPref, List.find?, hq'] at h ⊢
        simp only [Bool.not_eq_true] at hq'
        rw [prefMatches_mergePreference, hq']
        exact ⟨p, h, le_refl _⟩
    · simp only [replaceFirstPref, hq, Bool.false_eq_true, if_false]
      by_cases hq' : prefMatches uid' pid' q
      · have hp : p = q := by
          simp only [lookupPref, List.find?, hq'] at h
          exact (Option.some.injEq _ _ ▸ h).symm
        exact ⟨q, by simp [lookupPref, List.find?, hq'], by rw [hp]⟩
      · simp only [Bool.not_eq_true] at hq'
        simp only [lookupPref, List.find?, hq'] at h ⊢
        exact ih h

theorem roundTo1_bounds {q : ℚ} (h1 : 1 ≤ q) (h5 : q ≤ 5) :
    1 ≤ roundTo1 q ∧ roundTo1 q ≤ 5 := by
  unfold roundTo1
  have hlo : (10 : ℤ) ≤ ⌊q * 10 + 1 / 2⌋ := by
    rw [Int.le_floor]
    push_cast
    linarith
  have hhi : ⌊q * 10 + 1 / 2⌋ ≤ 50 := by
    have : ⌊q * 10 + 1 / 2⌋ < 51 := by
      rw [Int.floor_lt]
      push_cast
      linarith
    omega
  constructor
  · rw [le_div_iff (by norm_num : (0:ℚ) < 10)]
    exact_mod_cast by exact_mod_cast (by exact_mod_cast hlo : (10:ℚ) ≤ (⌊q * 10 + 1 / 2⌋ : ℚ))
  · rw [div_le_iff (by norm_num : (0:ℚ) < 10)]
    exact_mod_cast hhi

theorem weighted_avg_bounds {r1 w1 r w : ℚ} (hw1 : 0 < w1) (hw : 0 < w)
    (h11 : 1 ≤ r1) (h15 : r1 ≤ 5) (h21 : 1 ≤ r) (h25 : r ≤ 5) :
    1 ≤ (r1 * w1 + r * w) / (w1 + w) ∧ (r1 * w1 + r * w) / (w1 + w) ≤ 5 := by
  have hsum : 0 < w1 + w := by linarith
  constructor
  · rw [le_div_iff hsum]
    nlinarith
  · rw [div_le_iff hsum]
    nlinarith

theorem ratingWeight_rating_bounds {ty : EventType} {r w : ℚ}
    (h : ratingWeight ty = some (r, w)) : 1 ≤ r ∧ r ≤ 5 := by
  cases ty <;> simp only [ratingWeight, Option.some.injEq, Prod.mk.injEq] at h <;>
    obtain ⟨hr, hw⟩ := h <;> subst hr <;> constructor <;> norm_num

theorem mergePreference_invariant {p : UserPreference} (hp : prefInvariant p) {r w : ℚ}
    (hw : 0 < w) (hr1 : 1 ≤ r) (hr5 : r ≤ 5) (now : ℕ) :
    prefInvariant (mergePreference p r w now) := by
  obtain ⟨hpw, hp1, hp5⟩ := hp
  obtain ⟨havg1, havg5⟩ := weighted_avg_bounds hpw hw hp1 hp5 hr1 hr5
  obtain ⟨hr1', hr5'⟩ := roundTo1_bounds havg1 havg5
  exact ⟨by simp only [mergePreference]; linarith, hr1', hr5'⟩

theorem replaceFirstPref_invariant {userId pid : String} {r w : ℚ} {ty : EventType}
    {now : ℕ} (hw : 0 < w) (hr1 : 1 ≤ r) (hr5 : r ≤ 5) (l : List UserPreference)
    (hl : ∀ p ∈ l, prefInvariant p) :
    ∀ p ∈ replaceFirstPref userId pid r w ty now l, prefInvariant p := by
  induction l with
  | nil =>
    intro p hp
    simp only [replaceFirstPref, List.mem_singleton] at hp
    subst hp
    exact ⟨hw, hr1, hr5⟩
  | cons q qs ih =>
    intro p hp
    by_cases hq : prefMatches userId pid q
    · simp only [replaceFirstPref, hq, if_true, List.mem_cons] at hp
      rcases hp with hp | hp
      · subst hp
        exact mergePreference_invariant (hl q (List.mem_cons_self _ _)) hw hr1 hr5 now
      · exact hl p (List.mem_cons_of_mem _ hp)
    · simp only [replaceFirstPref, hq, Bool.false_eq_true, if_false, List.mem_cons] at hp
      rcases hp with hp | hp
      · subst hp
        exact hl p (List.mem_cons_self _ _)
      · exact ih (fun x hx => hl x (List.mem_cons_of_mem _ hx)) p hp

/-- C8: state mutation preserves the invariants — (i) for every preference row
present before an update, the row found for the same (user, product) key
afterwards has a weight at least as large; (ii) positive weight and a rating
within the 1-5 scale are preserved by every preference update; (iii) no event
ever decreases the current session's `totalScrollDepth`; (iv) after any
sequence of scroll events the session's `totalScrollDepth` is the running
maximum of the depths seen. -/
theorem c8_state_invariants :
    (∀ (userId : String) (now : ℕ) (event : EventData) (prefs : List UserPreference)
        (uid' pid' : String) (p : UserPreference),
      lookupPref prefs uid' pid' = some p →
      ∃ p', lookupPref (updateUserPreferences userId now event prefs) uid' pid' = some p'
        ∧ p.weight ≤ p'.weight)
    ∧ (∀ (userId : String) (now : ℕ) (event : EventData) (prefs : List UserPreference),
      (∀ p ∈ prefs, prefInvariant p) →
      ∀ p ∈ updateUserPreferences userId now event prefs, prefInvariant p)
    ∧ (∀ (e : EventData) (now : ℕ) (ev : UserEvent) (sess : UserSession),
      sess.totalScrollDepth ≤ (applyEventToSession e now ev sess).totalScrollDepth)
    ∧ (∀ (now : ℕ) (ds : List ℕ) (sess : UserSession),
      (ds.foldl (fun s d => applyEventToSession (scrollEvent d) now
          (mkUserEvent (scrollEvent d) now s.id) s) sess).totalScrollDepth
        = ds.foldl (fun m d => max m d) sess.totalScrollDepth) := by
  refine ⟨?_, ?_, ?_, ?_⟩
  · intro userId now event prefs uid' pid' p h
    unfold updateUserPreferences
    cases hpid : event.productId with
    | none => exact ⟨p, h, le_refl _⟩
    | some pid =>
      cases hrw : ratingWeight event.type with
      | none => exact ⟨p, h, le_refl _⟩
      | some rw0 =>
        obtain ⟨r, w⟩ := rw0
        exact lookupPref_replaceFirstPref_weight (ratingWeight_pos_weight hrw).1 prefs
          uid' pid' p h
  · intro userId now event prefs hinv
    unfold updateUserPreferences
    cases hpid : event.productId with
    | none => exact hinv
    | some pid =>
      cases hrw : ratingWeight event.type with
      | none => exact hinv
      | some rw0 =>
        obtain ⟨r, w⟩ := rw0
        exact replaceFirstPref_invariant (ratingWeight_pos_weight hrw).1
          (ratingWeight_rating_bounds hrw).1 (ratingWeight_rating_bounds hrw).2 prefs hinv
  · intro e now ev sess
    unfold applyEventToSession
    cases e.type <;> simp only []
    case product_view =>
      cases e.productId with
      | none => exact le_refl _
      | some pid =>
        by_cases hmem : pid ∈ sess.productsViewed <;> simp [hmem]
    case time_spent =>
      cases e.duration with
      | none => exact le_refl _
      | some d => by_cases hd : d = 0 <;> simp [hd]
    case scroll => exact le_max_left _ _
    all_goals exact le_refl _
  · intro now ds sess
    induction ds generalizing sess with
    | nil => rfl
    | cons d ds ih =>
      simp only [List.foldl]
      rw [ih]
      rfl

/-- Witness for C8 at concrete inputs: merging a purchase into an existing row
grows its weight from 1 to 2 while the rating stays in scale, and two scroll
events of depth 40 then 20 leave the maximum 40. -/
theorem c8_witness :
    (∃ p', lookupPref (updateUserPreferences "u" 7
        { type := .purchase, productId := some "p" }
        [⟨"u", "p", 5, .purchase, 3, 1⟩]) "u" "p" = some p'
      ∧ (⟨"u", "p", 5, .purchase, 3, 1⟩ : UserPreference).weight ≤ p'.weight)
    ∧ (∀ p ∈ updateUserPreferences "u" 7 { type := .purchase, productId := some "p" }
        [⟨"u", "p", 5, .purchase, 3, 1⟩], prefInvariant p)
    ∧ (([40, 20].foldl (fun s d => applyEventToSession (scrollEvent d) 9
          (mkUserEvent (scrollEvent d) 9 s.id) s) sess0).totalScrollDepth
        = [40, 20].foldl (fun m d => max m d) sess0.totalScrollDepth) := by
  refine ⟨?_, ?_, c8_state_invariants.2.2.2 9 [40, 20] sess0⟩
  · exact c8_state_invariants.1 "u" 7 _ _ "u" "p" ⟨"u", "p", 5, .purchase, 3, 1⟩
      (by simp [lookupPref, List.find?, prefMatches])
  · refine c8_state_invariants.2.1 "u" 7 _ _ ?_
    intro p hp
    simp only [List.mem_singleton] at hp
    subst hp
    exact ⟨by norm_num, by norm_num, by norm_num⟩

/-- C9: the analytics summary defines conversionRate as the number of purchase
events over the number of sessions (0 when there are no sessions) and errorRate
as the number of error events over the number of events (0 when there are no
events); on empty input it yields totalSessions = 0, conversionRate = 0 and
errorRate = 0 with no division error. -/
theorem c9_analytics_rates :
    ∀ (sessions : List UserSession) (events : List UserEvent),
      (getAnalyticsSummary sessions events).totalSessions = sessions.length
      ∧ (getAnalyticsSummary sessions events).conversionRate
        = (if 0 < sessions.length then
            ((events.filter (fun e => e.type = EventType.purchase)).length : ℚ)
              / sessions.length
          else 0)
      ∧ (getAnalyticsSummary sessions events).errorRate
        = (if 0 < events.length then
            ((events.filter (fun e => e.type = EventType.error)).length : ℚ) / events.length
          else 0)
      ∧ (sessions = [] → events = [] →
        (getAnalyticsSummary sessions events).totalSessions = 0
        ∧ (getAnalyticsSummary sessions events).conversionRate = 0
        ∧ (getAnalyticsSummary sessions events).errorRate = 0) := by
  intro sessions events
  refine ⟨rfl, rfl, rfl, ?_⟩
  intro hs he
  subst hs
  subst he
  exact ⟨rfl, rfl, rfl⟩

/-- Witness for C9 on the empty state: zero sessions and events give zero
totals and rates. -/
theorem c9_witness :
    (getAnalyticsSummary [] []).totalSessions = 0
    ∧ (getAnalyticsSummary [] []).conversionRate = 0
    ∧ (getAnalyticsSummary [] []).errorRate = 0 :=
  (c9_analytics_rates [] []).2.2.2 rfl rfl

theorem clamp_mem_Icc (x : ℝ) : max (-1) (min 1 x) ∈ Set.Icc (-1 : ℝ) 1 :=
  ⟨le_max_left _ _, max_le (by norm_num) (min_le_left _ _)⟩

/-- C3: for every pair of users the computed similarity lies in [-1, 1]; it is
0 when either user has no preferences, when they share no rated product, or
when the Pearson denominator is 0; otherwise it is num/den clamped to
[-1, 1]. -/
theorem c3_similarity_contract :
    ∀ (prefs : List UserPreference) (u1 u2 : String),
      calculateUserSimilarity prefs u1 u2 ∈ Set.Icc (-1 : ℝ) 1
      ∧ (prefsOfUser prefs u1 = [] ∨ prefsOfUser prefs u2 = [] →
          calculateUserSimilarity prefs u1 u2 = 0)
      ∧ (commonProducts prefs u1 u2 = [] → calculateUserSimilarity prefs u1 u2 = 0)
      ∧ (pearsonDen prefs u1 u2 = 0 → calculateUserSimilarity prefs u1 u2 = 0)
      ∧ (¬(prefsOfUser prefs u1 = [] ∨ prefsOfUser prefs u2 = []) →
          commonProducts prefs u1 u2 ≠ [] → pearsonDen prefs u1 u2 ≠ 0 →
          calculateUserSimilarity prefs u1 u2
            = max (-1) (min 1 ((pearsonNum prefs u1 u2 : ℝ) / pearsonDen prefs u1 u2))) := by
  intro prefs u1 u2
  refine ⟨?_, ?_, ?_, ?_, ?_⟩
  · unfold calculateUserSimilarity
    split_ifs with h1 h2 h3
    · exact ⟨by norm_num, by norm_num⟩
    · exact ⟨by norm_num, by norm_num⟩
    · exact ⟨by norm_num, by norm_num⟩
    · exact clamp_mem_Icc _
  · intro h
    unfold calculateUserSimilarity
    rw [if_pos h]
  · intro h
    unfold calculateUserSimilarity
    split_ifs with h1
    · rfl
    · rfl
  · intro h
    unfold calculateUserSimilarity
    split_ifs with h1 h2
    · rfl
    · rfl
    · rfl
  · intro h1 h2 h3
    unfold calculateUserSimilarity
    rw [if_neg h1, if_neg h2, if_neg h3]

theorem commonProducts_prefsC5 : commonProducts prefsC5 "t" "v" = ["p1", "p2"] := by decide

theorem ratingOf_prefsC5_t_p1 : ratingOf (prefsOfUser prefsC5 "t") "p1" = 1 := by decide

theorem ratingOf_prefsC5_t_p2 : ratingOf (prefsOfUser prefsC5 "t") "p2" = 5 := by decide

theorem ratingOf_prefsC5_v_p1 : ratingOf (prefsOfUser prefsC5 "v") "p1" = 5 := by decide

theorem ratingOf_prefsC5_v_p2 : ratingOf (prefsOfUser prefsC5 "v") "p2" = 1 := by decide

theorem pearsonSum1_prefsC5 : pearsonSum1 prefsC5 "t" "v" = 6 := by
  rw [pearsonSum1, commonProducts_prefsC5]
  simp only [List.map_cons, List.map_nil, ratingOf_prefsC5_t_p1, ratingOf_prefsC5_t_p2,
    List.sum_cons, List.sum_nil]
  norm_num

theorem pearsonSum2_prefsC5 : pearsonSum2 prefsC5 "t" "v" = 6 := by
  rw [pearsonSum2, commonProducts_prefsC5]
  simp only [List.map_cons, List.map_nil, ratingOf_prefsC5_v_p1, ratingOf_prefsC5_v_p2,
    List.sum_cons, List.sum_nil]
  norm_num

theorem pearsonSum1Sq_prefsC5 : pearsonSum1Sq prefsC5 "t" "v" = 26 := by
  rw [pearsonSum1Sq, commonProducts_prefsC5]
  simp only [List.map_cons, List.map_nil, ratingOf_prefsC5_t_p1, ratingOf_prefsC5_t_p2,
    List.sum_cons, List.sum_nil]
  norm_num

theorem pearsonSum2Sq_prefsC5 : pearsonSum2Sq prefsC5 "t" "v" = 26 := by
  rw [pearsonSum2Sq, commonProducts_prefsC5]
  simp only [List.map_cons, List.map_nil, ratingOf_prefsC5_v_p1, ratingOf_prefsC5_v_p2,
    List.sum_cons, List.sum_nil]
  norm_num

theorem pearsonPSum_prefsC5 : pearsonPSum prefsC5 "t" "v" = 10 := by
  rw [pearsonPSum, commonProducts_prefsC5]
  simp only [List.map_cons, List.map_nil, ratingOf_prefsC5_t_p1, ratingOf_prefsC5_t_p2,
    ratingOf_prefsC5_v_p1, ratingOf_prefsC5_v_p2, List.sum_cons, List.sum_nil]
  norm_num

theorem pearsonN_prefsC5 : pearsonN prefsC5 "t" "v" = 2 := by
  rw [pearsonN, commonProducts_prefsC5]
  norm_num

theorem pearsonNum_prefsC5 : pearsonNum prefsC5 "t" "v" = -8 := by
  rw [pearsonNum, pearsonPSum_prefsC5, pearsonSum1_prefsC5, pearsonSum2_prefsC5,
    pearsonN_prefsC5]
  norm_num

theorem pearsonDen_prefsC5 : pearsonDen prefsC5 "t" "v" = 8 := by
  unfold pearsonDen
  rw [pearsonSum1Sq_prefsC5, pearsonSum2Sq_prefsC5, pearsonSum1_prefsC5, pearsonSum2_prefsC5,
    pearsonN_prefsC5]
  rw [show ((26 - 6 * 6 / 2) * (26 - 6 * 6 / 2) : ℚ) = (64 : ℚ) by norm_num]
  rw [show ((64 : ℚ) : ℝ) = (8 : ℝ) ^ 2 by norm_num]
  exact Real.sqrt_sq (by norm_num)

theorem calculateUserSimilarity_prefsC5 : calculateUserSimilarity prefsC5 "t" "v" = -1 := by
  unfold calculateUserSimilarity
  have h1 : ¬(prefsOfUser prefsC5 "t" = [] ∨ prefsOfUser prefsC5 "v" = []) := by decide
  have h2 : ¬(commonProducts prefsC5 "t" "v" = []) := by decide
  have h3 : pearsonDen prefsC5 "t" "v" ≠ 0 := by
    rw [pearsonDen_prefsC5]
    norm_num
  rw [if_neg h1, if_neg h2, if_neg h3]
  rw [pearsonNum_prefsC5, pearsonDen_prefsC5]
  norm_num

/-- Witness for C3: on the empty preference table the no-preferences branch
gives 0; on the anti-correlated fixture the denominator is nonzero and the
similarity is the clamped num/den. -/
theorem c3_witness :
    (prefsOfUser ([] : List UserPreference) "a" = []
      ∨ prefsOfUser ([] : List UserPreference) "b" = [])
    ∧ calculateUserSimilarity [] "a" "b" = 0
    ∧ pearsonDen prefsC5 "t" "v" ≠ 0
    ∧ calculateUserSimilarity prefsC5 "t" "v"
      = max (-1) (min 1 ((pearsonNum prefsC5 "t" "v" : ℝ) / pearsonDen prefsC5 "t" "v")) := by
  refine ⟨Or.inl rfl, (c3_similarity_contract [] "a" "b").2.1 (Or.inl rfl), ?_, ?_⟩
  · rw [pearsonDen_prefsC5]
    norm_num
  · exact (c3_similarity_contract prefsC5 "t" "v").2.2.2.2 (by decide) (by decide)
      (by rw [pearsonDen_prefsC5]; norm_num)

theorem insertByDesc_perm {α β : Type} [LinearOrder β] (key : α → β) (x : α) (l : List α) :
    (insertByDesc key x l).Perm (x :: l) := by
  induction l with
  | nil => exact List.Perm.refl _
  | cons y ys ih =>
    unfold insertByDesc
    split_ifs with h
    · exact List.Perm.refl _
    · exact (ih.cons y).trans (List.Perm.swap x y ys)

theorem sortByDesc_foldl_perm {α β : Type} [LinearOrder β] (key : α → β) :
    ∀ (l acc : List α),
      (l.foldl (fun acc x => insertByDesc key x acc) acc).Perm (l ++ acc) := by
  intro l
  induction l with
  | nil => intro acc; simp
  | cons x xs ih =>
    intro acc
    simp only [List.foldl, List.cons_append]
    exact ((ih (insertByDesc key x acc)).trans
      (((insertByDesc_perm key x acc).append_left xs))).trans List.perm_middle

theorem sortByDesc_perm {α β : Type} [LinearOrder β] (key : α → β) (l : List α) :
    (sortByDesc key l).Perm l := by
  simpa using sortByDesc_foldl_perm key l []

theorem insertByDesc_sorted {α β : Type} [LinearOrder β] (key : α → β) (x : α)
    {l : List α} (h : List.Pairwise (fun a b => key b ≤ key a) l) :
    List.Pairwise (fun a b => key b ≤ key a) (insertByDesc key x l) := by
  induction l with
  | nil => simp [insertByDesc]
  | cons y ys ih =>
    rw [List.pairwise_cons] at h
    obtain ⟨hy, hys⟩ := h
    unfold insertByDesc
    split_ifs with hlt
    · refine List.Pairwise.cons ?_ (List.Pairwise.cons hy hys)
      intro z hz
      rcases List.mem_cons.mp hz with rfl | hz
      · exact le_of_lt hlt
      · exact le_trans (hy z hz) (le_of_lt hlt)
    · refine List.Pairwise.cons ?_ (ih hys)
      intro z hz
      rcases List.mem_cons.mp ((insertByDesc_perm key x ys).mem_iff.mp hz) with rfl | hz
      · exact not_lt.mp hlt
      · exact hy z hz

theorem sortByDesc_foldl_sorted {α β : Type} [LinearOrder β] (key : α → β) :
    ∀ (l acc : List α), List.Pairwise (fun a b => key b ≤ key a) acc →
      List.Pairwise (fun a b => key b ≤ key a)
        (l.foldl (fun acc x => insertByDesc key x acc) acc) := by
  intro l
  induction l with
  | nil => intro acc h; exact h
  | cons x xs ih =>
    intro acc h
    exact ih (insertByDesc key x acc) (insertByDesc_sorted key x h)

theorem sortByDesc_sorted {α β : Type} [LinearOrder β] (key : α → β) (l : List α) :
    List.Pairwise (fun a b => key b ≤ key a) (sortByDesc key l) :=
  sortByDesc_foldl_sorted key l [] (List.Pairwise.nil)


theorem insertByDesc_filter_key {α β : Type} [LinearOrder β] (key : α → β) (x : α)
    {l : List α} (k : β) (hl : List.Pairwise (fun a b => key b ≤ key a) l) :
    (insertByDesc key x l).filter (fun a => key a = k)
      = if key x = k then l.filter (fun a => key a = k) ++ [x]
        else l.filter (fun a => key a = k) := by
  induction l with
  | nil =>
    by_cases hx : key x = k <;> simp [insertByDesc, List.filter, hx]
  | cons y ys ih =>
    rw [List.pairwise_cons] at hl
    obtain ⟨hy, hys⟩ := hl
    unfold insertByDesc
    split_ifs with hlt hx hx2
    · -- x lands in front; every element of y :: ys has key ≤ key y < key x = k
      have hnone : (y :: ys).filter (fun a => key a = k) = [] := by
        rw [List.filter_eq_nil_iff]
        intro z hz
        simp only [decide_eq_true_eq]
        intro hzk
        rcases List.mem_cons.mp hz with rfl | hz
        · exact absurd (hx ▸ hzk ▸ hlt) (lt_irrefl _)
        · exact absurd (hx ▸ hzk ▸ lt_of_le_of_lt (hy z hz) hlt) (lt_irrefl _)
      rw [hnone]
      simp [List.filter_cons, hnone, hx]
    · -- x lands in front but its key is not k: x is filtered out
      simp [List.filter_cons, hx]
    · -- x recurses past y, key x = k
      rw [List.filter_cons, List.filter_cons, ih hys]
      by_cases hyk : key y = k <;> simp [hx2, hyk]
    · -- x recurses past y, key x ≠ k
      rw [List.filter_cons, List.filter_cons, ih hys]
      by_cases hyk : key y = k <;> simp [hx2, hyk]

theorem sortByDesc_foldl_filter_key {α β : Type} [LinearOrder β] (key : α → β) (k : β) :
    ∀ (l acc : List α), List.Pairwise (fun a b => key b ≤ key a) acc →
      (l.foldl (fun acc x => insertByDesc key x acc) acc).filter (fun a => key a = k)
        = acc.filter (fun a => key a = k) ++ l.filter (fun a => key a = k) := by
  intro l
  induction l with
  | nil => intro acc h; simp
  | cons x xs ih =>
    intro acc h
    simp only [List.foldl]
    rw [ih (insertByDesc key x acc) (insertByDesc_sorted key x h),
      insertByDesc_filter_key key x k h, List.filter_cons]
    by_cases hx : key x = k <;> simp [hx]

theorem sortByDesc_filter_key {α β : Type} [LinearOrder β] (key : α → β) (k : β)
    (l : List α) :
    (sortByDesc key l).filter (fun a => key a = k) = l.filter (fun a => key a = k) := by
  simpa using sortByDesc_foldl_filter_key key k l [] List.Pairwise.nil

/-- C4 (amended): the engine keeps the first five entries of the stable
descending-by-similarity sort of the candidate map — the selection is ordered
by descending similarity, but candidates with EQUAL similarity stay in map
insertion order (the order of each candidate's first preference row sharing a
product with the target), NOT in ascending user-id order; the selection is
deterministic in the preference-list order. -/
theorem c4_topSimilarUsers_amended :
    ∀ (prefs : List UserPreference) (userId : String),
      topSimilarUsers prefs userId
        = ((sortByDesc Prod.snd (similarityEntries prefs userId)).take 5).map Prod.fst
      ∧ (topSimilarUsers prefs userId).length ≤ 5
      ∧ (sortByDesc Prod.snd (similarityEntries prefs userId)).Perm
          (similarityEntries prefs userId)
      ∧ List.Pairwise (fun a b => b.2 ≤ a.2)
          (sortByDesc Prod.snd (similarityEntries prefs userId))
      ∧ ∀ s : ℝ,
          (sortByDesc Prod.snd (similarityEntries prefs userId)).filter (fun e => e.2 = s)
            = (similarityEntries prefs userId).filter (fun e => e.2 = s) := by
  intro prefs userId
  refine ⟨rfl, ?_, sortByDesc_perm _ _, sortByDesc_sorted _ _, fun s => sortByDesc_filter_key _ s _⟩
  · rw [topSimilarUsers, List.length_map]
    exact le_trans (List.length_take_le _ _) (le_refl _)

theorem sim_prefsC4_zero (u : String)
    (h1 : ¬(prefsOfUser prefsC4 "t" = [] ∨ prefsOfUser prefsC4 u = []))
    (hcp : commonProducts prefsC4 "t" u = ["p0"])
    (hru : ratingOf (prefsOfUser prefsC4 u) "p0" = 5) :
    calculateUserSimilarity prefsC4 "t" u = 0 := by
  have hrt : ratingOf (prefsOfUser prefsC4 "t") "p0" = 5 := by decide
  have hs1 : pearsonSum1 prefsC4 "t" u = 5 := by
    rw [pearsonSum1, hcp]
    simp [hrt]
  have hs1sq : pearsonSum1Sq prefsC4 "t" u = 25 := by
    rw [pearsonSum1Sq, hcp]
    simp only [List.map_cons, List.map_nil, hrt, List.sum_cons, List.sum_nil]
    norm_num
  have hs2 : pearsonSum2 prefsC4 "t" u = 5 := by
    rw [pearsonSum2, hcp]
    simp [hru]
  have hs2sq : pearsonSum2Sq prefsC4 "t" u = 25 := by
    rw [pearsonSum2Sq, hcp]
    simp only [List.map_cons, List.map_nil, hru, List.sum_cons, List.sum_nil]
    norm_num
  have hn : pearsonN prefsC4 "t" u = 1 := by
    rw [pearsonN, hcp]
    norm_num
  have hden : pearsonDen prefsC4 "t" u = 0 := by
    unfold pearsonDen
    rw [hs1sq, hs1, hs2sq, hs2, hn]
    rw [show ((25 - 5 * 5 / 1) * (25 - 5 * 5 / 1) : ℚ) = 0 by norm_num]
    simp
  unfold calculateUserSimilarity
  rw [if_neg h1, if_neg (show ¬commonProducts prefsC4 "t" u = [] by rw [hcp]; simp),
    if_pos hden]

theorem sim_prefsC4_u1 : calculateUserSimilarity prefsC4 "t" "u1" = 0 :=
  sim_prefsC4_zero "u1" (by decide) (by decide) (by decide)

theorem sim_prefsC4_u2 : calculateUserSimilarity prefsC4 "t" "u2" = 0 :=
  sim_prefsC4_zero "u2" (by decide) (by decide) (by decide)

theorem sim_prefsC4_u3 : calculateUserSimilarity prefsC4 "t" "u3" = 0 :=
  sim_prefsC4_zero "u3" (by decide) (by decide) (by decide)

theorem sim_prefsC4_u4 : calculateUserSimilarity prefsC4 "t" "u4" = 0 :=
  sim_prefsC4_zero "u4" (by decide) (by decide) (by decide)

theorem sim_prefsC4_u5 : calculateUserSimilarity prefsC4 "t" "u5" = 0 :=
  sim_prefsC4_zero "u5" (by decide) (by decide) (by decide)

theorem sim_prefsC4_u6 : calculateUserSimilarity prefsC4 "t" "u6" = 0 :=
  sim_prefsC4_zero "u6" (by decide) (by decide) (by decide)

theorem similarityEntries_prefsC4 :
    similarityEntries prefsC4 "t"
      = [("u6", calculateUserSimilarity prefsC4 "t" "u6"),
         ("u5", calculateUserSimilarity prefsC4 "t" "u5"),
         ("u4", calculateUserSimilarity prefsC4 "t" "u4"),
         ("u3", calculateUserSimilarity prefsC4 "t" "u3"),
         ("u2", calculateUserSimilarity prefsC4 "t" "u2"),
         ("u1", calculateUserSimilarity prefsC4 "t" "u1")] := rfl

theorem similarityEntries_prefsC4_zeros :
    similarityEntries prefsC4 "t"
      = [("u6", (0 : ℝ)), ("u5", 0), ("u4", 0), ("u3", 0), ("u2", 0), ("u1", 0)] := by
  rw [similarityEntries_prefsC4, sim_prefsC4_u6, sim_prefsC4_u5, sim_prefsC4_u4,
    sim_prefsC4_u3, sim_prefsC4_u2, sim_prefsC4_u1]

theorem topSimilarUsers_prefsC4 :
    topSimilarUsers prefsC4 "t" = ["u6", "u5", "u4", "u3", "u2"] := by
  rw [topSimilarUsers, similarityEntries_prefsC4_zeros]
  simp [sortByDesc, insertByDesc]

theorem topSimilarUsersSpec_prefsC4 :
    topSimilarUsersSpec prefsC4 "t" = ["u1", "u2", "u3", "u4", "u5"] := by
  rw [topSimilarUsersSpec, similarityEntries_prefsC4_zeros]
  simp +decide [insertSpec]

/-- C4 counterexample: on `prefsC4` all six candidates tie at similarity 0, the
code keeps the five whose first qualifying preference rows appear first
(["u6",...,"u2"]) while the spec's lower-id tie-break would keep
["u1",...,"u5"]: the lowest user id "u1" ties the selected "u6" yet is NOT
selected, refuting the claimed lower-user-id preference. -/
theorem c4_counterexample :
    topSimilarUsers prefsC4 "t" = ["u6", "u5", "u4", "u3", "u2"]
    ∧ topSimilarUsersSpec prefsC4 "t" = ["u1", "u2", "u3", "u4", "u5"]
    ∧ calculateUserSimilarity prefsC4 "t" "u1" = calculateUserSimilarity prefsC4 "t" "u6"
    ∧ "u1" ∉ topSimilarUsers prefsC4 "t"
    ∧ "u6" ∈ topSimilarUsers prefsC4 "t" := by
  refine ⟨topSimilarUsers_prefsC4, topSimilarUsersSpec_prefsC4, ?_, ?_, ?_⟩
  · rw [sim_prefsC4_u1, sim_prefsC4_u6]
  · rw [topSimilarUsers_prefsC4]
    decide
  · rw [topSimilarUsers_prefsC4]
    decide

theorem getProductCategory_a : getProductCategory "a" = "clothing" := by decide

theorem getProductCategory_x : getProductCategory "x" = "electronics" := by decide

theorem analyzeUserBehavior_prefsC6 :
    analyzeUserBehavior prefsC6 [] "t"
      = { avgRating := 1, totalInteractions := 1, purchaseRate := 0,
          avgSessionDuration := 0, categoryDiversity := 1 } := by
  unfold analyzeUserBehavior
  simp +decide [prefsC6, prefsOfUser, firstDedup]

/-- C6 (code bug): on a user whose only preference is a product_view (rating 1)
and a candidate product in a category the user has no affinity for, the code
computes probability 0.3 + 0.5·0.2 = 0.4 — the `categoryPreferences` lookup is
always undefined so the 0.5 fallback is used — while the claimed formula with
the real category affinity (0 here) yields 0.3. -/
theorem c6_purchase_probability_bug :
    calculatePurchaseProbability "x" (analyzeUserBehavior prefsC6 [] "t") = 2 / 5
    ∧ purchaseProbabilitySpec prefsC6 "t" "x" = 3 / 10
    ∧ calculatePurchaseProbability "x" (analyzeUserBehavior prefsC6 [] "t")
      ≠ purchaseProbabilitySpec prefsC6 "t" "x" := by
  refine ⟨?_, ?_, ?_⟩
  · rw [analyzeUserBehavior_prefsC6, calculatePurchaseProbability]
    norm_num
  · unfold purchaseProbabilitySpec
    rw [analyzeUserBehavior_prefsC6]
    simp only [prefsC6, prefsOfUser, List.filter, List.foldl, List.map, assocSet,
      assocFind?, getProductCategory_a, getProductCategory_x]
    rw [if_neg (by decide : ¬(("clothing" : String) == "electronics") = true)]
    norm_num
  · rw [analyzeUserBehavior_prefsC6, calculatePurchaseProbability]
    unfold purchaseProbabilitySpec
    rw [analyzeUserBehavior_prefsC6]
    simp only [prefsC6, prefsOfUser, List.filter, List.foldl, List.map, assocSet,
      assocFind?, getProductCategory_a, getProductCategory_x]
    rw [if_neg (by decide : ¬(("clothing" : String) == "electronics") = true)]
    norm_num

theorem assocFind?_assocSet_self {β : Type} (k : String) (v : β) (l : List (String × β)) :
    assocFind? k (assocSet k v l) = some v := by
  induction l with
  | nil => simp [assocSet, assocFind?]
  | cons e rest ih =>
    obtain ⟨k', v'⟩ := e
    by_cases h : (k' == k) = true
    · simp [assocSet, assocFind?, h]
    · simp only [assocSet, h, Bool.false_eq_true, if_false, assocFind?]
      exact ih

theorem assocFind?_assocSet_ne {β : Type} {k k' : String} (h : ¬(k' == k) = true) (v : β)
    (l : List (String × β)) : assocFind? k' (assocSet k v l) = assocFind? k' l := by
  have h' : ¬(k == k') = true := by
    intro hkk
    exact h (by rw [beq_iff_eq] at hkk ⊢; exact hkk.symm)
  induction l with
  | nil =>
    simp only [assocSet, assocFind?]
    rw [if_neg h']
  | cons e rest ih =>
    obtain ⟨k'', v''⟩ := e
    by_cases hk : (k'' == k) = true
    · have hkeq : k'' = k := by simpa [beq_iff_eq] using hk
      subst hkeq
      simp only [assocSet, beq_self_eq_true, if_true, assocFind?]
      rw [if_neg h', if_neg h']
    · simp only [assocSet, hk, Bool.false_eq_true, if_false, assocFind?]
      by_cases hk2 : (k'' == k') = true
      · rw [if_pos hk2, if_pos hk2]
      · rw [if_neg hk2, if_neg hk2]
        exact ih

theorem foldl_scoreStep_lookup_none (f : ℝ × ℝ × ℕ → ℝ → ℝ × ℝ × ℕ) :
    ∀ (l : List RecommendationScore) (acc : List (String × ℝ × ℝ × ℕ)) (pid : String),
      l.find? (fun r => r.productId == pid) = none →
      assocFind? pid (l.foldl (scoreStep f) acc) = assocFind? pid acc := by
  intro l
  induction l with
  | nil => intro acc pid h; rfl
  | cons x xs ih =>
    intro acc pid h
    cases hx : (x.productId == pid) with
    | true => simp [List.find?, hx] at h
    | false =>
      simp only [List.find?, hx] at h
      simp only [List.foldl]
      rw [ih (scoreStep f acc x) pid h]
      unfold scoreStep
      refine assocFind?_assocSet_ne ?_ _ _
      intro hpe
      rw [beq_iff_eq] at hpe
      rw [hpe, beq_self_eq_true] at hx
      exact Bool.true_eq_false.mp hx

theorem foldl_scoreStep_lookup_some (f : ℝ × ℝ × ℕ → ℝ → ℝ × ℝ × ℕ) :
    ∀ (l : List RecommendationScore) (acc : List (String × ℝ × ℝ × ℕ)) (pid : String)
      (r : RecommendationScore),
      (l.map RecommendationScore.productId).Nodup →
      l.find? (fun r => r.productId == pid) = some r →
      assocFind? pid (l.foldl (scoreStep f) acc)
        = some (f ((assocFind? pid acc).getD (0, 0, 0)) r.score) := by
  intro l
  induction l with
  | nil => intro acc pid r _ h; simp [List.find?] at h
  | cons x xs ih =>
    intro acc pid r hnd h
    rw [List.map_cons, List.nodup_cons] at hnd
    obtain ⟨hx_notin, hxs_nd⟩ := hnd
    cases hx : (x.productId == pid) with
    | true =>
      have hpid : x.productId = pid := by rwa [beq_iff_eq] at hx
      simp only [List.find?, hx, Option.some.injEq] at h
      subst h
      have hnone : xs.find? (fun r => r.productId == pid) = none := by
        rw [List.find?_eq_none]
        intro y hy hpy
        rw [beq_iff_eq] at hpy
        exact hx_notin (hpid ▸ hpy ▸ List.mem_map_of_mem RecommendationScore.productId hy)
      simp only [List.foldl]
      rw [foldl_scoreStep_lookup_none f xs _ pid hnone]
      unfold scoreStep
      rw [hpid]
      exact assocFind?_assocSet_self pid _ acc
    | false =>
      simp only [List.find?, hx] at h
      simp only [List.foldl]
      rw [ih (scoreStep f acc x) pid r hxs_nd h]
      have hne : assocFind? pid (scoreStep f acc x) = assocFind? pid acc := by
        unfold scoreStep
        refine assocFind?_assocSet_ne ?_ _ _
        intro hpe
        rw [beq_iff_eq] at hpe
        rw [hpe, beq_self_eq_true] at hx
        exact Bool.true_eq_false.mp hx
      rw [hne]

theorem combineScores_lookup (collab contentRecs : List RecommendationScore)
    (hc : (collab.map RecommendationScore.productId).Nodup)
    (hct : (contentRecs.map RecommendationScore.productId).Nodup) (pid : String) :
    assocFind? pid (combineScores collab contentRecs)
      = match collab.find? (fun r => r.productId == pid),
              contentRecs.find? (fun r => r.productId == pid) with
        | none, none => none
        | some rc, none => some (max 0 rc.score, 0, 1)
        | none, some rt => some (0, max 0 rt.score, 1)
        | some rc, some rt => some (max 0 rc.score, max 0 rt.score, 2) := by
  unfold combineScores
  cases hfc : collab.find? (fun r => r.productId == pid) with
  | none =>
    cases hft : contentRecs.find? (fun r => r.productId == pid) with
    | none =>
      rw [foldl_scoreStep_lookup_none contentUpd contentRecs _ pid hft,
        foldl_scoreStep_lookup_none collabUpd collab [] pid hfc]
      rfl
    | some rt =>
      rw [foldl_scoreStep_lookup_some contentUpd contentRecs _ pid rt hct hft,
        foldl_scoreStep_lookup_none collabUpd collab [] pid hfc]
      rfl
  | some rc =>
    cases hft : contentRecs.find? (fun r => r.productId == pid) with
    | none =>
      rw [foldl_scoreStep_lookup_none contentUpd contentRecs _ pid hft,
        foldl_scoreStep_lookup_some collabUpd collab [] pid rc hc hfc]
      rfl
    | some rt =>
      rw [foldl_scoreStep_lookup_some contentUpd contentRecs _ pid rt hct hft,
        foldl_scoreStep_lookup_some collabUpd collab [] pid rc hc hfc]
      rfl

theorem assocFind?_some_mem {β : Type} {k : String} {v : β} :
    ∀ {l : List (String × β)}, assocFind? k l = some v → (k, v) ∈ l := by
  intro l
  induction l with
  | nil => intro h; simp [assocFind?] at h
  | cons e rest ih =>
    obtain ⟨k', v'⟩ := e
    intro h
    by_cases hk : (k' == k) = true
    · rw [assocFind?, if_pos hk, Option.some.injEq] at h
      rw [beq_iff_eq] at hk
      subst hk
      subst h
      exact List.mem_cons_self _ _
    · rw [assocFind?, if_neg hk] at h
      exact List.mem_cons_of_mem _ (ih h)

theorem assocSet_map_fst {β : Type} (k : String) (v : β) :
    ∀ (l : List (String × β)),
      (assocSet k v l).map Prod.fst
        = if k ∈ l.map Prod.fst then l.map Prod.fst else l.map Prod.fst ++ [k] := by
  intro l
  induction l with
  | nil => simp [assocSet]
  | cons e rest ih =>
    obtain ⟨k', v'⟩ := e
    by_cases h : (k' == k) = true
    · have hkeq : k' = k := by rwa [beq_iff_eq] at h
      subst hkeq
      simp [assocSet]
    · have hkne : k' ≠ k := by
        intro hkeq
        exact h (by rw [hkeq, beq_self_eq_true])
      rw [assocSet, if_neg h]
      simp only [List.map_cons, List.mem_cons]
      rw [ih]
      by_cases hm : k ∈ rest.map Prod.fst
      · rw [if_pos hm, if_pos (Or.inr hm)]
      · rw [if_neg hm, if_neg (by rintro (hk | hk); exact hkne hk.symm; exact hm hk)]
        rfl

theorem assocSet_fst_nodup {β : Type} (k : String) (v : β) {l : List (String × β)}
    (h : (l.map Prod.fst).Nodup) : ((assocSet k v l).map Prod.fst).Nodup := by
  rw [assocSet_map_fst]
  split_ifs with hm
  · exact h
  · rw [List.nodup_append]
    exact ⟨h, List.nodup_singleton k, fun a ha hak => hm ((List.mem_singleton.mp hak) ▸ ha)⟩

theorem foldl_preserves_keys_nodup {α γ : Type} (step : List (String × γ) → α → List (String × γ))
    (hstep : ∀ acc x, ((acc.map Prod.fst).Nodup) → (((step acc x).map Prod.fst).Nodup)) :
    ∀ (l : List α) (acc : List (String × γ)),
      ((acc.map Prod.fst).Nodup) → (((l.foldl step acc).map Prod.fst).Nodup) := by
  intro l
  induction l with
  | nil => intro acc h; exact h
  | cons x xs ih => intro acc h; exact ih (step acc x) (hstep acc x h)

theorem collabProductScores_fst_nodup (prefs : List UserPreference) (userId : String) :
    ((collabProductScores prefs userId).map Prod.fst).Nodup := by
  unfold collabProductScores
  refine foldl_preserves_keys_nodup _ ?_ _ [] (by simp)
  intro acc su h
  refine foldl_preserves_keys_nodup _ ?_ _ acc h
  intro acc2 pref h2
  split_ifs with hc
  · exact h2
  · exact assocSet_fst_nodup _ _ h2

theorem contentProductScores_fst_nodup (prefs : List UserPreference) (userId : String) :
    ((contentProductScores prefs userId).map Prod.fst).Nodup := by
  unfold contentProductScores
  refine foldl_preserves_keys_nodup _ ?_ _ [] (by simp)
  intro acc pref h
  split_ifs with hc
  · exact h
  · cases hfind : assocFind? (getProductCategory pref.productId)
        (contentCategoryPrefs prefs userId) with
    | none => simpa [hfind] using h
    | some cs => simpa [hfind] using assocSet_fst_nodup _ _ h

theorem getCollaborative_ids_nodup (prefs : List UserPreference) (userId : String)
    (limit : ℕ) :
    ((getCollaborativeRecommendations prefs userId limit).map
      RecommendationScore.productId).Nodup := by
  unfold getCollaborativeRecommendations
  split_ifs with h
  · simp
  · have hperm : ((sortByDesc RecommendationScore.score
        ((collabProductScores prefs userId).map collabRec)).map
          RecommendationScore.productId).Perm
        (((collabProductScores prefs userId).map collabRec).map
          RecommendationScore.productId) :=
      (sortByDesc_perm RecommendationScore.score _).map _
    have hbase : (((collabProductScores prefs userId).map collabRec).map
        RecommendationScore.productId).Nodup := by
      rw [List.map_map]
      exact collabProductScores_fst_nodup prefs userId
    have hsorted := (hperm.nodup_iff).mpr hbase
    have hsub : (((sortByDesc RecommendationScore.score
        ((collabProductScores prefs userId).map collabRec)).take limit).map
          RecommendationScore.productId).Sublist
        ((sortByDesc RecommendationScore.score
          ((collabProductScores prefs userId).map collabRec)).map
            RecommendationScore.productId) :=
      (List.take_sublist _ _).map _
    exact hsub.nodup hsorted

theorem getContent_ids_nodup (prefs : List UserPreference) (userId : String) (limit : ℕ) :
    ((getContentBasedRecommendations prefs userId limit).map
      RecommendationScore.productId).Nodup := by
  unfold getContentBasedRecommendations
  split_ifs with h
  · simp
  · have hperm : ((sortByDesc RecommendationScore.score
        ((contentProductScores prefs userId).map contentRec)).map
          RecommendationScore.productId).Perm
        (((contentProductScores prefs userId).map contentRec).map
          RecommendationScore.productId) :=
      (sortByDesc_perm RecommendationScore.score _).map _
    have hbase : (((contentProductScores prefs userId).map contentRec).map
        RecommendationScore.productId).Nodup := by
      rw [List.map_map]
      exact contentProductScores_fst_nodup prefs userId
    have hsorted := (hperm.nodup_iff).mpr hbase
    have hsub : (((sortByDesc RecommendationScore.score
        ((contentProductScores prefs userId).map contentRec)).take limit).map
          RecommendationScore.productId).Sublist
        ((sortByDesc RecommendationScore.score
          ((contentProductScores prefs userId).map contentRec)).map
            RecommendationScore.productId) :=
      (List.take_sublist _ _).map _
    exact hsub.nodup hsorted

theorem find?_some_ids {l : List RecommendationScore} {pid : String}
    {r : RecommendationScore} (h : l.find? (fun r => r.productId == pid) = some r) :
    pid ∈ l.map RecommendationScore.productId ∧ scoreOf l pid = r.score := by
  have hmem := List.mem_of_find?_eq_some h
  have hp : (r.productId == pid) = true := by
    have hps := List.find?_some h
    simpa using hps
  rw [beq_iff_eq] at hp
  refine ⟨hp ▸ List.mem_map_of_mem _ hmem, ?_⟩
  rw [scoreOf, h]
  rfl

theorem find?_none_ids {l : List RecommendationScore} {pid : String}
    (h : l.find? (fun r => r.productId == pid) = none) :
    pid ∉ l.map RecommendationScore.productId ∧ scoreOf l pid = 0 := by
  constructor
  · intro hmem
    obtain ⟨r, hr, hrp⟩ := List.mem_map.mp hmem
    apply List.find?_eq_none.mp h r hr
    simpa [beq_iff_eq] using hrp
  · rw [scoreOf, h]
    rfl

/-- C5 (amended): the hybrid combiner calls both engines with `2*limit`; for
every product in either result set the hybrid entry's score is
`0.6 * max(0, collaborativeScore) + 0.4 * max(0, contentScore)` — an absent
side contributes 0, but so does a NEGATIVE collaborative score (the combiner
takes `Math.max` against the 0 default, clamping negative scores to 0 rather
than weighting them) — and the confidence is `min(occurrenceCount / 2, 1)`. -/
theorem c5_hybrid_formula :
    ∀ (prefs : List UserPreference) (userId : String) (limit : ℕ),
      getHybridRecommendations prefs userId limit
        = (sortByDesc RecommendationScore.score
            (hybridEntries (getCollaborativeRecommendations prefs userId (limit * 2))
              (getContentBasedRecommendations prefs userId (limit * 2)))).take limit
      ∧ ∀ pid : String,
        (pid ∈ (getCollaborativeRecommendations prefs userId (limit * 2)).map
            RecommendationScore.productId
          ∨ pid ∈ (getContentBasedRecommendations prefs userId (limit * 2)).map
            RecommendationScore.productId) →
        ∃ e ∈ hybridEntries (getCollaborativeRecommendations prefs userId (limit * 2))
            (getContentBasedRecommendations prefs userId (limit * 2)),
          e.productId = pid
          ∧ e.score
            = max 0 (scoreOf (getCollaborativeRecommendations prefs userId (limit * 2)) pid)
                * 0.6
              + max 0 (scoreOf (getContentBasedRecommendations prefs userId (limit * 2)) pid)
                * 0.4
          ∧ e.confidence
            = min ((((if pid ∈ (getCollaborativeRecommendations prefs userId (limit * 2)).map
                    RecommendationScore.productId then 1 else 0)
                + (if pid ∈ (getContentBasedRecommendations prefs userId (limit * 2)).map
                    RecommendationScore.productId then 1 else 0) : ℕ) : ℝ) / 2) 1 := by
  intro prefs userId limit
  refine ⟨rfl, ?_⟩
  intro pid hmem
  have hc := getCollaborative_ids_nodup prefs userId (limit * 2)
  have hct := getContent_ids_nodup prefs userId (limit * 2)
  have hlook := combineScores_lookup (getCollaborativeRecommendations prefs userId (limit * 2))
    (getContentBasedRecommendations prefs userId (limit * 2)) hc hct pid
  cases hfc : (getCollaborativeRecommendations prefs userId (limit * 2)).find?
      (fun r => r.productId == pid) with
  | none =>
    cases hft : (getContentBasedRecommendations prefs userId (limit * 2)).find?
        (fun r => r.productId == pid) with
    | none =>
      exact absurd hmem (by
        rcases find?_none_ids hfc with ⟨h1, _⟩
        rcases find?_none_ids hft with ⟨h2, _⟩
        rintro (h | h)
        exacts [h1 h, h2 h])
    | some rt =>
      rw [hfc, hft] at hlook
      obtain ⟨hmem1, hscore1⟩ := find?_none_ids hfc
      obtain ⟨hmem2, hscore2⟩ := find?_some_ids hft
      refine ⟨_, List.mem_map_of_mem _ (assocFind?_some_mem hlook), rfl, ?_, ?_⟩
      · show (0 : ℝ) * 0.6 + max 0 rt.score * 0.4 = _
        rw [hscore1, hscore2, max_self]
      · show min ((((0 : ℕ) + 1 + 1 - 1 : ℕ) : ℝ) / 2) 1 = _
        rw [if_neg hmem1, if_pos hmem2]
  | some rc =>
    cases hft : (getContentBasedRecommendations prefs userId (limit * 2)).find?
        (fun r => r.productId == pid) with
    | none =>
      rw [hfc, hft] at hlook
      obtain ⟨hmem1, hscore1⟩ := find?_some_ids hfc
      obtain ⟨hmem2, hscore2⟩ := find?_none_ids hft
      refine ⟨_, List.mem_map_of_mem _ (assocFind?_some_mem hlook), rfl, ?_, ?_⟩
      · show max (0 : ℝ) rc.score * 0.6 + (0 : ℝ) * 0.4 = _
        rw [hscore1, hscore2, max_self]
      · show min ((((1 : ℕ) : ℝ)) / 2) 1 = _
        rw [if_pos hmem1, if_neg hmem2]
    | some rt =>
      rw [hfc, hft] at hlook
      obtain ⟨hmem1, hscore1⟩ := find?_some_ids hfc
      obtain ⟨hmem2, hscore2⟩ := find?_some_ids hft
      refine ⟨_, List.mem_map_of_mem _ (assocFind?_some_mem hlook), rfl, ?_, ?_⟩
      · show max (0 : ℝ) rc.score * 0.6 + max (0 : ℝ) rt.score * 0.4 = _
        rw [hscore1, hscore2]
      · show min ((((2 : ℕ) : ℝ)) / 2) 1 = _
        rw [if_pos hmem1, if_pos hmem2]

theorem collab_prefsC5_pairs :
    (getCollaborativeRecommendations prefsC5 "t" 2).map (fun r => (r.productId, r.score))
      = [("s", ((0 : ℝ) + ((5 : ℚ) : ℝ) * calculateUserSimilarity prefsC5 "t" "v")
          / ((1 : ℕ) : ℝ))] := rfl

theorem collab_prefsC5_eval :
    (getCollaborativeRecommendations prefsC5 "t" 2).map (fun r => (r.productId, r.score))
      = [("s", -5)] := by
  rw [collab_prefsC5_pairs, calculateUserSimilarity_prefsC5]
  norm_num

theorem content_prefsC5_eval : getContentBasedRecommendations prefsC5 "t" 2 = [] := rfl

theorem hybrid_prefsC5_pairs :
    (getHybridRecommendations prefsC5 "t" 1).map (fun r => (r.productId, r.score))
      = [("s", max 0 (((0 : ℝ) + ((5 : ℚ) : ℝ) * calculateUserSimilarity prefsC5 "t" "v")
            / ((1 : ℕ) : ℝ)) * 0.6 + (0 : ℝ) * 0.4)] := rfl

theorem hybrid_prefsC5_eval :
    (getHybridRecommendations prefsC5 "t" 1).map (fun r => (r.productId, r.score))
      = [("s", 0)] := by
  rw [hybrid_prefsC5_pairs, calculateUserSimilarity_prefsC5]
  have h5 : ((0 : ℝ) + ((5 : ℚ) : ℝ) * (-1)) / ((1 : ℕ) : ℝ) = -5 := by
    push_cast
    norm_num
  rw [h5, show max (0 : ℝ) (-5) = 0 from max_eq_left (by norm_num)]
  norm_num

/-- C5 counterexample: on `prefsC5` with limit 1 the collaborative engine
(called with 2·limit) returns product "s" with score -5 (similarity -1 times
rating 5), the content engine returns nothing, and the hybrid score of "s" is
0 — the `Math.max` against the 0 default clamps the negative side — whereas
the claimed exact formula demands 0.6·(-5) + 0.4·0 = -3. -/
theorem c5_counterexample :
    (getCollaborativeRecommendations prefsC5 "t" 2).map (fun r => (r.productId, r.score))
      = [("s", -5)]
    ∧ getContentBasedRecommendations prefsC5 "t" 2 = []
    ∧ (getHybridRecommendations prefsC5 "t" 1).map (fun r => (r.productId, r.score))
      = [("s", 0)]
    ∧ (0 : ℝ) ≠ (-5) * 0.6 + 0 * 0.4 :=
  ⟨collab_prefsC5_eval, content_prefsC5_eval, hybrid_prefsC5_eval, by norm_num⟩

/-- Witness for the amended C5 at prefsC5, user "t", limit 1, product "s". -/
theorem c5_witness :
    ("s" ∈ (getCollaborativeRecommendations prefsC5 "t" (1 * 2)).map
        RecommendationScore.productId
      ∨ "s" ∈ (getContentBasedRecommendations prefsC5 "t" (1 * 2)).map
        RecommendationScore.productId)
    ∧ ∃ e ∈ hybridEntries (getCollaborativeRecommendations prefsC5 "t" (1 * 2))
        (getContentBasedRecommendations prefsC5 "t" (1 * 2)),
      e.productId = "s"
      ∧ e.score
        = max 0 (scoreOf (getCollaborativeRecommendations prefsC5 "t" (1 * 2)) "s") * 0.6
          + max 0 (scoreOf (getContentBasedRecommendations prefsC5 "t" (1 * 2)) "s") * 0.4
      ∧ e.confidence
        = min ((((if "s" ∈ (getCollaborativeRecommendations prefsC5 "t" (1 * 2)).map
                RecommendationScore.productId then 1 else 0)
            + (if "s" ∈ (getContentBasedRecommendations prefsC5 "t" (1 * 2)).map
                RecommendationScore.productId then 1 else 0) : ℕ) : ℝ) / 2) 1 := by
  have hm : "s" ∈ (getCollaborativeRecommendations prefsC5 "t" (1 * 2)).map
      RecommendationScore.productId := by
    rw [show (getCollaborativeRecommendations prefsC5 "t" (1 * 2)).map
        RecommendationScore.productId = ["s"] from rfl]
    exact List.mem_singleton.mpr rfl
  exact ⟨Or.inl hm, (c5_hybrid_formula prefsC5 "t" 1).2 "s" (Or.inl hm)⟩
